import Mathlib

/-!
# DRIMS email service: the request handler of `functions/email-service.js`

A shallow embedding of `exports.handler` and of the parts of the JavaScript
runtime it relies on (strings as UTF-16 code units, truthiness, `JSON.parse`,
`JSON.stringify`, destructuring), followed by theorems about the handler.

The handler is asynchronous only in that it awaits the two operations of the
mail transport one after the other; its behaviour is the sequential function
`handler` below, which returns the response together with the ordered list of
effects it performed, on an event as the platform delivers it and a transport
whose failures are errors with a message. `handlerRaw` embeds the same function
on an arbitrary event object and transport, with the places where it throws and
its calls of `JSON.parse`; `handlerRaw_toRaw` shows that the two agree.
-/

namespace EmailService

/-! ## JavaScript strings -/

/-- A JavaScript string: a sequence of UTF-16 code units. -/
abbrev JsString := List Nat

/-- UTF-16 encoding of one Unicode scalar value. -/
def utf16 (c : Char) : List Nat :=
  if c.toNat < 65536 then [c.toNat]
  else [55296 + (c.toNat - 65536) / 1024, 56320 + (c.toNat - 65536) % 1024]

/-- The JavaScript string written by a source literal. -/
def js (s : String) : JsString :=
  s.toList.flatMap utf16

/-! ## JSON values -/

/-- A value produced by `JSON.parse`. A number is kept as the exact decimal
`(-1)^neg * mant * 10^exp` read from its literal. -/
inductive Json where
  | null : Json
  | bool (b : Bool) : Json
  | num (neg : Bool) (mant : Nat) (exp : Int) : Json
  | str (s : JsString) : Json
  | arr (xs : List Json) : Json
  | obj (kvs : List (JsString × Json)) : Json

/-- Whether the decimal `mant * 10^exp` converts to the double `0`: it does when
it is at most `2^(-1075)`, half of the least positive double (a tie goes to the
even neighbour, which is zero). -/
def roundsToZero (mant : Nat) (exp : Int) : Bool :=
  mant == 0 || (decide (exp < 0) && decide (mant * 2 ^ 1075 ≤ 10 ^ exp.natAbs))

/-- JavaScript `ToBoolean` on a parsed value: `null`, `false`, `0`, `-0` and the
empty string are falsy, everything else (every array and object) is truthy. -/
def Json.truthy : Json → Bool
  | .null => false
  | .bool b => b
  | .num _ mant exp => !roundsToZero mant exp
  | .str s => !s.isEmpty
  | .arr _ => true
  | .obj _ => true

/-- `ToBoolean` on a possibly `undefined` value (`none` is `undefined`). -/
def truthy : Option Json → Bool
  | none => false
  | some v => v.truthy

/-- `ToBoolean` on a possibly `undefined` string, as for `process.env.X`. -/
def truthyStr : Option JsString → Bool
  | none => false
  | some s => !s.isEmpty

/-! ## `JSON.parse` -/

/-- JSON whitespace: space, tab, line feed, carriage return. -/
def isWs (c : Nat) : Bool :=
  c == 32 || c == 9 || c == 10 || c == 13

/-- Drops leading JSON whitespace. -/
def skipWs : List Nat → List Nat
  | [] => []
  | c :: cs => if isWs c then skipWs cs else c :: cs

/-- Splits off the longest run of decimal digits, returned as digit values. -/
def takeDigits : List Nat → List Nat × List Nat
  | [] => ([], [])
  | c :: cs =>
    if 48 ≤ c ∧ c ≤ 57 then ((c - 48) :: (takeDigits cs).1, (takeDigits cs).2)
    else ([], c :: cs)

/-- Value of a list of decimal digits, most significant first. -/
def digitsVal (ds : List Nat) : Nat :=
  ds.foldl (fun a d => 10 * a + d) 0

/-- The integer part of a JSON number: `0`, or a digit run not starting with `0`. -/
def parseIntPart : List Nat → Option (List Nat × List Nat)
  | 48 :: r => some ([0], r)
  | s =>
    match takeDigits s with
    | ([], _) => none
    | (ds, r) => some (ds, r)

/-- The optional fraction of a JSON number: `.` followed by at least one digit. -/
def parseFracPart : List Nat → Option (List Nat × List Nat)
  | 46 :: r =>
    match takeDigits r with
    | ([], _) => none
    | (ds, r1) => some (ds, r1)
  | s => some ([], s)

/-- The digits of an exponent, after its sign: at least one. -/
def parseExpDigits (s : List Nat) : Option (Nat × List Nat) :=
  match takeDigits s with
  | ([], _) => none
  | (ds, r) => some (digitsVal ds, r)

/-- The optional exponent of a JSON number: `e` or `E`, an optional sign, digits. -/
def parseExpPart : List Nat → Option (Int × List Nat)
  | c :: r =>
    if c = 101 ∨ c = 69 then
      match r with
      | 43 :: r1 => (parseExpDigits r1).map fun p => ((p.1 : Int), p.2)
      | 45 :: r1 => (parseExpDigits r1).map fun p => (-(p.1 : Int), p.2)
      | _ => (parseExpDigits r).map fun p => ((p.1 : Int), p.2)
    else some (0, c :: r)
  | [] => some (0, [])

/-- A JSON number without its sign. -/
def parseUnsigned (neg : Bool) (s : List Nat) : Option (Json × List Nat) :=
  match parseIntPart s with
  | none => none
  | some (ip, s1) =>
    match parseFracPart s1 with
    | none => none
    | some (fp, s2) =>
      match parseExpPart s2 with
      | none => none
      | some (e, s3) => some (.num neg (digitsVal (ip ++ fp)) (e - fp.length), s3)

/-- A JSON number: an optional minus sign, then the unsigned number. -/
def parseNumber : List Nat → Option (Json × List Nat)
  | 45 :: r => parseUnsigned true r
  | s => parseUnsigned false s

/-- Value of a hexadecimal digit, either case. -/
def hexVal (c : Nat) : Option Nat :=
  if 48 ≤ c ∧ c ≤ 57 then some (c - 48)
  else if 65 ≤ c ∧ c ≤ 70 then some (c - 55)
  else if 97 ≤ c ∧ c ≤ 102 then some (c - 87)
  else none

/-- The code unit written by the four hexadecimal digits of a `\u` escape. -/
def hex4 (a b c d : Nat) : Option Nat :=
  match hexVal a, hexVal b, hexVal c, hexVal d with
  | some x, some y, some z, some w => some (x * 4096 + y * 256 + z * 16 + w)
  | _, _, _, _ => none

/-- The code unit denoted by a one-letter escape. -/
def simpleEscape (c : Nat) : Option Nat :=
  if c = 34 then some 34
  else if c = 92 then some 92
  else if c = 47 then some 47
  else if c = 98 then some 8
  else if c = 102 then some 12
  else if c = 110 then some 10
  else if c = 114 then some 13
  else if c = 116 then some 9
  else none

/-- The characters of a JSON string after its opening quote, up to and including
the closing quote. Control characters below U+0020 must be escaped. The fuel
bounds the number of code units read. -/
def parseStringChars : Nat → List Nat → Option (JsString × List Nat)
  | 0, _ => none
  | _ + 1, [] => none
  | fuel + 1, c :: rest =>
    if c = 34 then some ([], rest)
    else if c = 92 then
      match rest with
      | [] => none
      | e :: rest1 =>
        if e = 117 then
          match rest1 with
          | a :: b :: c1 :: d :: rest2 =>
            match hex4 a b c1 d with
            | none => none
            | some u => (parseStringChars fuel rest2).map fun p => (u :: p.1, p.2)
          | _ => none
        else
          match simpleEscape e with
          | none => none
          | some u => (parseStringChars fuel rest1).map fun p => (u :: p.1, p.2)
    else if c < 32 then none
    else (parseStringChars fuel rest).map fun p => (c :: p.1, p.2)

/-- A JSON string after its opening quote. -/
def parseString (s : List Nat) : Option (JsString × List Nat) :=
  parseStringChars (s.length + 1) s

/-- Removes a literal from the front of the input. -/
def stripLit : List Nat → List Nat → Option (List Nat)
  | [], s => some s
  | _ :: _, [] => none
  | l :: ls, c :: cs => if l = c then stripLit ls cs else none

mutual

/-- One JSON value at the front of whitespace-free input. -/
def parseValue : Nat → List Nat → Option (Json × List Nat)
  | 0, _ => none
  | _ + 1, [] => none
  | fuel + 1, c :: r =>
    if c = 110 then (stripLit [117, 108, 108] r).map fun r1 => (Json.null, r1)
    else if c = 116 then (stripLit [114, 117, 101] r).map fun r1 => (Json.bool true, r1)
    else if c = 102 then (stripLit [97, 108, 115, 101] r).map fun r1 => (Json.bool false, r1)
    else if c = 34 then (parseString r).map fun p => (Json.str p.1, p.2)
    else if c = 91 then
      match skipWs r with
      | [] => none
      | d :: r1 =>
        if d = 93 then some (Json.arr [], r1)
        else (parseElements fuel (d :: r1)).map fun p => (Json.arr p.1, p.2)
    else if c = 123 then
      match skipWs r with
      | [] => none
      | d :: r1 =>
        if d = 125 then some (Json.obj [], r1)
        else (parseMembers fuel (d :: r1)).map fun p => (Json.obj p.1, p.2)
    else parseNumber (c :: r)

/-- The elements of a non-empty array, up to and including the closing bracket. -/
def parseElements : Nat → List Nat → Option (List Json × List Nat)
  | 0, _ => none
  | fuel + 1, s =>
    match parseValue fuel s with
    | none => none
    | some (v, r) =>
      match skipWs r with
      | [] => none
      | d :: r1 =>
        if d = 44 then (parseElements fuel (skipWs r1)).map fun p => (v :: p.1, p.2)
        else if d = 93 then some ([v], r1)
        else none

/-- The members of a non-empty object, up to and including the closing brace. -/
def parseMembers : Nat → List Nat → Option (List (JsString × Json) × List Nat)
  | 0, _ => none
  | _ + 1, [] => none
  | fuel + 1, c :: r =>
    if c = 34 then
      match parseString r with
      | none => none
      | some (k, r1) =>
        match skipWs r1 with
        | [] => none
        | d :: r2 =>
          if d = 58 then
            match parseValue fuel (skipWs r2) with
            | none => none
            | some (v, r3) =>
              match skipWs r3 with
              | [] => none
              | e :: r4 =>
                if e = 44 then
                  (parseMembers fuel (skipWs r4)).map fun p => ((k, v) :: p.1, p.2)
                else if e = 125 then some ([(k, v)], r4)
                else none
          else none
    else none

end

/-- A whole JSON text: whitespace, one value, whitespace, end of input. Every
nested call consumes input at least every second step, so the fuel
`2 * length + 2` is never exhausted. -/
def parseText (s : List Nat) : Option Json :=
  match parseValue (2 * s.length + 2) (skipWs s) with
  | none => none
  | some (v, r) => if (skipWs r).isEmpty then some v else none

/-- What `JSON.parse` is applied to: `event.body` is a string, `null` (a request
without a body), or `undefined` (the property is absent from the event). -/
inductive BodyVal where
  | undefined : BodyVal
  | null : BodyVal
  | str (s : JsString) : BodyVal

/-- JavaScript `ToString` on the argument of `JSON.parse`. -/
def BodyVal.toJsString : BodyVal → JsString
  | .undefined => js "undefined"
  | .null => js "null"
  | .str s => s

/-- `JSON.parse(x)`: the argument is converted to a string and read as one JSON
text; `none` stands for the `SyntaxError` thrown otherwise. -/
def JSON.parse (x : BodyVal) : Option Json :=
  parseText x.toJsString

/-! ## `JSON.stringify` on the response payloads -/

/-- Lower-case hexadecimal digit. -/
def hexDigit (n : Nat) : Nat :=
  if n < 10 then 48 + n else 87 + n

/-- The escape `\uXXXX` of a code unit. -/
def uEscape (c : Nat) : List Nat :=
  [92, 117, hexDigit (c / 4096 % 16), hexDigit (c / 256 % 16), hexDigit (c / 16 % 16),
    hexDigit (c % 16)]

/-- How one code unit is written inside a JSON string when it is not part of a
surrogate pair. -/
def escapeUnit (c : Nat) : List Nat :=
  if c = 8 then [92, 98]
  else if c = 9 then [92, 116]
  else if c = 10 then [92, 110]
  else if c = 12 then [92, 102]
  else if c = 13 then [92, 114]
  else if c = 34 then [92, 34]
  else if c = 92 then [92, 92]
  else if c < 32 then uEscape c
  else if 55296 ≤ c ∧ c ≤ 57343 then uEscape c
  else [c]

/-- The characters of a quoted JSON string: a high surrogate followed by a low
surrogate is copied, every other code unit goes through `escapeUnit`. -/
def quoteChars : List Nat → List Nat
  | [] => []
  | [c] => escapeUnit c
  | c :: d :: rest =>
    if (55296 ≤ c ∧ c ≤ 56319) ∧ (56320 ≤ d ∧ d ≤ 57343) then c :: d :: quoteChars rest
    else escapeUnit c ++ quoteChars (d :: rest)

/-- `JSON.stringify` on a string. -/
def quote (s : JsString) : JsString :=
  34 :: quoteChars s ++ [34]

/-- The values the handler puts in a response payload: strings, booleans and
lists of strings. -/
inductive RespVal where
  | str (s : JsString) : RespVal
  | bool (b : Bool) : RespVal
  | strs (xs : List JsString) : RespVal
  deriving DecidableEq

/-- `JSON.stringify` on a payload value. -/
def RespVal.stringify : RespVal → JsString
  | .str s => quote s
  | .bool true => js "true"
  | .bool false => js "false"
  | .strs xs => 91 :: List.intercalate [44] (xs.map quote) ++ [93]

/-- `JSON.stringify` on an object literal, given as its properties in order. -/
def JSON.stringify (fields : List (JsString × RespVal)) : JsString :=
  123 :: List.intercalate [44] (fields.map fun kv => quote kv.1 ++ 58 :: kv.2.stringify) ++ [125]

/-! ## The handler -/

/-- A thrown JavaScript error, with its `message`. -/
structure JsError where
  message : JsString
  deriving DecidableEq

/-- The incoming request. `httpMethod` is `none` when the property is absent;
`headers` maps header names to values. -/
structure Event where
  httpMethod : Option JsString
  headers : List (JsString × JsString)
  body : BodyVal

/-- The part of `process.env` the handler reads; `none` is an unset variable. -/
structure Env where
  API_KEY : Option JsString
  GMAIL_USER : Option JsString
  GMAIL_APP_PASSWORD : Option JsString

/-- The object returned by the handler. -/
structure Response where
  statusCode : Nat
  headers : List (JsString × JsString)
  body : JsString
  deriving DecidableEq

/-- The object handed to `sendMail`. The fields `from_` and `to_` are the properties
`from` and `to`; a property that is `none` is `undefined` (`from_`) or absent
(`text`, `html`). -/
structure MailOptions where
  from_ : Option Json
  to_ : List Json
  subject : Json
  text : Option Json
  html : Option Json

/-- Modelled from the spec: the value `sendMail` resolves to (the mail transport
is the external `nodemailer` package), a `TransportResult` with a message id and
the accepted and rejected addresses. -/
structure SendResult where
  messageId : JsString
  accepted : List JsString
  rejected : List JsString

/-- The behaviour of the mail transport during one invocation: the outcome of
`verify()` and of `sendMail(options)` on the transport created with the given
`user` and `pass`. -/
structure Transport where
  verify : Option JsString → Option JsString → Except JsError Unit
  sendMail : Option JsString → Option JsString → MailOptions → Except JsError SendResult

/-- What the handler does besides returning, in order. -/
inductive Effect where
  | createTransport (user pass : Option JsString) : Effect
  | verify : Effect
  | sendMail (opts : MailOptions) : Effect
  | logSent (messageId : JsString) : Effect
  | logError (e : JsError) : Effect

/-- The headers of the preflight response. -/
def corsHeaders : List (JsString × JsString) :=
  [(js "Access-Control-Allow-Origin", js "*"),
   (js "Access-Control-Allow-Headers", js "Content-Type, Authorization, x-api-key"),
   (js "Access-Control-Allow-Methods", js "POST, OPTIONS"),
   (js "Access-Control-Max-Age", js "86400")]

/-- The headers of every other response. -/
def jsonHeaders : List (JsString × JsString) :=
  [(js "Access-Control-Allow-Origin", js "*"),
   (js "Content-Type", js "application/json")]

/-- The value of `emailData.k` on a parsed object: the last member named `k`. -/
def getField (k : JsString) : List (JsString × Json) → Option Json
  | [] => none
  | kv :: rest =>
    match getField k rest with
    | some v => some v
    | none => if kv.1 = k then some kv.2 else none

/-- The five values bound by the destructuring pattern (`to_` and `from_` are the
bindings `to` and `from`). -/
structure Fields where
  to_ : Option Json
  subject : Option Json
  text : Option Json
  html : Option Json
  from_ : Option Json

/-- The property `k` of a parsed value other than `null`: a member of an object,
`undefined` on an array, string, number or boolean. -/
def getProp (k : JsString) : Json → Option Json
  | .obj kvs => getField k kvs
  | _ => none

/-- The statement `const { to, subject, text, html, from } = emailData`: it throws
a `TypeError` on `null` (the message is the one of V8). -/
def destructure : Json → Except JsError Fields
  | .null =>
    .error { message := js "Cannot destructure property \x27to\x27 of \x27emailData\x27 as it is null." }
  | v =>
    .ok { to_ := getProp (js "to") v, subject := getProp (js "subject") v,
          text := getProp (js "text") v, html := getProp (js "html") v,
          from_ := getProp (js "from") v }

/-- The value itself when it is truthy: what `x && ...` and `x || ...` branch on. -/
def truthyVal : Option Json → Option Json
  | some v => if v.truthy then some v else none
  | none => none

/-- The operand `Array.isArray(to) ? to : [to]`. -/
def normalizeTo : Json → List Json
  | .arr xs => xs
  | v => [v]

/-- The `mailOptions` object literal. -/
def mailOptions (env : Env) (to_ subject : Json) (f : Fields) : MailOptions :=
  { from_ := match truthyVal f.from_ with
      | some v => some v
      | none => env.GMAIL_USER.map Json.str
    to_ := normalizeTo to_
    subject := subject
    text := truthyVal f.text
    html := truthyVal f.html }

/-- The outer `try` block: either it returns a response or it throws, and in both
cases it has performed the listed effects. -/
def tryBlock (t : Transport) (env : Env) (event : Event) :
    Except JsError Response × List Effect :=
  match JSON.parse event.body with
  | none =>
    (.ok { statusCode := 400, headers := jsonHeaders,
           body := JSON.stringify [(js "error", .str (js "Invalid JSON in request body"))] }, [])
  | some emailData =>
    match destructure emailData with
    | .error e => (.error e, [])
    | .ok f =>
      match truthyVal f.to_ with
      | none =>
        (.ok { statusCode := 400, headers := jsonHeaders,
               body := JSON.stringify [(js "error", .str (js "Missing required field: to"))] }, [])
      | some to_ =>
        match truthyVal f.subject with
        | none =>
          (.ok { statusCode := 400, headers := jsonHeaders,
                 body := JSON.stringify
                   [(js "error", .str (js "Missing required field: subject"))] }, [])
        | some subject =>
          if !truthy f.text && !truthy f.html then
            (.ok { statusCode := 400, headers := jsonHeaders,
                   body := JSON.stringify
                     [(js "error",
                       .str (js "Missing email content: either text or html is required"))] }, [])
          else if !truthyStr env.GMAIL_USER || !truthyStr env.GMAIL_APP_PASSWORD then
            (.ok { statusCode := 500, headers := jsonHeaders,
                   body := JSON.stringify
                     [(js "error", .str (js "Email service not configured properly"))] }, [])
          else
            let created := Effect.createTransport env.GMAIL_USER env.GMAIL_APP_PASSWORD
            match t.verify env.GMAIL_USER env.GMAIL_APP_PASSWORD with
            | .error e => (.error e, [created, .verify])
            | .ok _ =>
              let opts := mailOptions env to_ subject f
              match t.sendMail env.GMAIL_USER env.GMAIL_APP_PASSWORD opts with
              | .error e => (.error e, [created, .verify, .sendMail opts])
              | .ok result =>
                (.ok { statusCode := 200, headers := jsonHeaders,
                       body := JSON.stringify
                         [(js "success", .bool true),
                          (js "message", .str (js "Email sent successfully")),
                          (js "messageId", .str result.messageId),
                          (js "accepted", .strs result.accepted),
                          (js "rejected", .strs result.rejected)] },
                 [created, .verify, .sendMail opts, .logSent result.messageId])

/-- The function `exports.handler`: the response it returns and the effects it
performs, for a transport behaviour, an environment and a request. -/
def handler (t : Transport) (env : Env) (event : Event) : Response × List Effect :=
  if event.httpMethod = some (js "OPTIONS") then
    ({ statusCode := 200, headers := corsHeaders, body := js "" }, [])
  else if event.httpMethod ≠ some (js "POST") then
    ({ statusCode := 405, headers := jsonHeaders,
       body := JSON.stringify [(js "error", .str (js "Method Not Allowed"))] }, [])
  else
    let apiKey := event.headers.lookup (js "x-api-key")
    let validApiKey := env.API_KEY
    if !truthyStr validApiKey || apiKey ≠ validApiKey then
      ({ statusCode := 401, headers := jsonHeaders,
         body := JSON.stringify
           [(js "error", .str (js "Unauthorized")),
            (js "message", .str (js "Invalid or missing API key"))] }, [])
    else
      match tryBlock t env event with
      | (.ok response, effects) => (response, effects)
      | (.error error, effects) =>
        ({ statusCode := 500, headers := jsonHeaders,
           body := JSON.stringify
             [(js "success", .bool false),
              (js "error", .str (js "Failed to send email")),
              (js "details", .str error.message)] },
         effects ++ [.logError error])

/-! ## Requests, payloads and sample values used in the statements -/

/-- An authenticated POST request: the method is `POST`, `API_KEY` is set and
non-empty, and the `x-api-key` header equals it. -/
def Authenticated (env : Env) (event : Event) : Prop :=
  event.httpMethod = some (js "POST") ∧ truthyStr env.API_KEY = true ∧
    event.headers.lookup (js "x-api-key") = env.API_KEY

/-- The response of the outer `catch` block for an error with message `m`. -/
def failureResponse (m : JsString) : Response :=
  { statusCode := 500, headers := jsonHeaders,
    body := JSON.stringify
      [(js "success", .bool false),
       (js "error", .str (js "Failed to send email")),
       (js "details", .str m)] }

/-- A `400` response with the given error text. -/
def badRequest (msg : String) : Response :=
  { statusCode := 400, headers := jsonHeaders,
    body := JSON.stringify [(js "error", .str (js msg))] }

/-- An environment with every variable set. -/
def sampleEnv : Env :=
  { API_KEY := some (js "k"), GMAIL_USER := some (js "u@gmail.com"),
    GMAIL_APP_PASSWORD := some (js "pw") }

/-- A POST request carrying the key of `sampleEnv`. -/
def samplePost (body : BodyVal) : Event :=
  { httpMethod := some (js "POST"), headers := [(js "x-api-key", js "k")], body := body }

/-- A transport on which both operations succeed. -/
def okTransport : Transport :=
  { verify := fun _ _ => .ok ()
    sendMail := fun _ _ _ =>
      .ok { messageId := js "m1", accepted := [js "x@y.com"], rejected := [] } }

/-- A transport on which `verify` fails with the given message. -/
def failingTransport (m : JsString) : Transport :=
  { verify := fun _ _ => .error { message := m }
    sendMail := fun _ _ _ =>
      .ok { messageId := js "m1", accepted := [js "x@y.com"], rejected := [] } }

/-- The response to a request whose key is not accepted. -/
def unauthorizedResponse : Response :=
  { statusCode := 401, headers := jsonHeaders,
    body := JSON.stringify
      [(js "error", .str (js "Unauthorized")),
       (js "message", .str (js "Invalid or missing API key"))] }

/-- The response when the mail credentials are not configured. -/
def notConfiguredResponse : Response :=
  { statusCode := 500, headers := jsonHeaders,
    body := JSON.stringify [(js "error", .str (js "Email service not configured properly"))] }

/-- The response after a successful send. -/
def successResponse (result : SendResult) : Response :=
  { statusCode := 200, headers := jsonHeaders,
    body := JSON.stringify
      [(js "success", .bool true),
       (js "message", .str (js "Email sent successfully")),
       (js "messageId", .str result.messageId),
       (js "accepted", .strs result.accepted),
       (js "rejected", .strs result.rejected)] }

/-- The body parses to a payload that passes the three field checks; `f` are the
destructured fields, `to_` and `subject` the (truthy) recipient and subject. -/
def PassesValidation (body : BodyVal) (f : Fields) (to_ subject : Json) : Prop :=
  ∃ v, JSON.parse body = some v ∧ destructure v = .ok f ∧
    f.to_ = some to_ ∧ to_.truthy = true ∧
    f.subject = some subject ∧ subject.truthy = true ∧
    (truthy f.text = true ∨ truthy f.html = true)

/-- Both mail credentials are set and non-empty. -/
def Configured (env : Env) : Prop :=
  truthyStr env.GMAIL_USER = true ∧ truthyStr env.GMAIL_APP_PASSWORD = true

/-- The rest of the `try` block once the field checks have passed: the credential
check followed by the verify-then-send sequence. -/
def sendPhase (t : Transport) (env : Env) (to_ subject : Json) (f : Fields) :
    Except JsError Response × List Effect :=
  if !truthyStr env.GMAIL_USER || !truthyStr env.GMAIL_APP_PASSWORD then
    (.ok notConfiguredResponse, [])
  else
    match t.verify env.GMAIL_USER env.GMAIL_APP_PASSWORD with
    | .error e =>
      (.error e, [.createTransport env.GMAIL_USER env.GMAIL_APP_PASSWORD, .verify])
    | .ok _ =>
      match t.sendMail env.GMAIL_USER env.GMAIL_APP_PASSWORD (mailOptions env to_ subject f) with
      | .error e =>
        (.error e, [.createTransport env.GMAIL_USER env.GMAIL_APP_PASSWORD, .verify,
          .sendMail (mailOptions env to_ subject f)])
      | .ok result =>
        (.ok (successResponse result),
          [.createTransport env.GMAIL_USER env.GMAIL_APP_PASSWORD, .verify,
           .sendMail (mailOptions env to_ subject f), .logSent result.messageId])

/-- The body of the example request of the specification:
`to` is `x@y.com`, `subject` is `Hi`, `text` is `Hello`. -/
def sampleBody : JsString :=
  js "\x7b\"to\":\"x@y.com\",\"subject\":\"Hi\",\"text\":\"Hello\"\x7d"

/-- The fields bound from `sampleBody`. -/
def sampleFields : Fields :=
  { to_ := some (.str (js "x@y.com")), subject := some (.str (js "Hi")),
    text := some (.str (js "Hello")), html := none, from_ := none }

/-- The parsed value a payload value is written for. -/
def RespVal.toJson : RespVal → Json
  | .str s => .str s
  | .bool b => .bool b
  | .strs xs => .arr (xs.map Json.str)

/-- Fuel that suffices for `parseValue` to read a written payload value. -/
def RespVal.parseFuel : RespVal → Nat
  | .str _ => 1
  | .bool _ => 1
  | .strs xs => xs.length + 2

/-- Fuel that suffices for `parseMembers` to read the written properties. -/
def fieldsFuel : List (JsString × RespVal) → Nat
  | [] => 0
  | kv :: rest => kv.2.parseFuel + 1 + fieldsFuel rest

/-- The effect is an invocation of `verify`. -/
def Effect.isVerify : Effect → Bool
  | .verify => true
  | _ => false

/-- The effect is an invocation of `sendMail`. -/
def Effect.isSendMail : Effect → Bool
  | .sendMail _ => true
  | _ => false

/-- A payload whose `to` is the empty list: `to` is `[]`, `subject` is `Hi`,
`text` is `Hello`. -/
def emptyRecipientsBody : JsString :=
  js "\x7b\"to\":[],\"subject\":\"Hi\",\"text\":\"Hello\"\x7d"

/-- The fields bound from `emptyRecipientsBody`. -/
def emptyRecipientsFields : Fields :=
  { to_ := some (.arr []), subject := some (.str (js "Hi")),
    text := some (.str (js "Hello")), html := none, from_ := none }

/-! ## The handler with its throw sites and its calls of `JSON.parse` -/

/-- A value thrown by JavaScript code: `null`, `undefined`, or any other value,
given by its `message` property (`none` when it has none, as for a thrown
string). -/
inductive Thrown where
  | null : Thrown
  | undefined : Thrown
  | obj (message : Option JsString) : Thrown

/-- The incoming request as an arbitrary object: like `Event`, but the property
`headers` may be absent (`none`). -/
structure RawEvent where
  httpMethod : Option JsString
  headers : Option (List (JsString × JsString))
  body : BodyVal

/-- The behaviour of a mail transport whose operations may reject with any
value. -/
structure RawTransport where
  verify : Option JsString → Option JsString → Except Thrown Unit
  sendMail : Option JsString → Option JsString → MailOptions → Except Thrown SendResult

/-- What the handler does, in order: its calls of `JSON.parse`, of the transport
and of `console.log`. -/
inductive Step where
  | parse (x : BodyVal) : Step
  | createTransport (user pass : Option JsString) : Step
  | verify : Step
  | sendMail (opts : MailOptions) : Step
  | logSent (messageId : JsString) : Step
  | logError (e : Thrown) : Step

/-- How an invocation ends: the promise resolves with a response, or it rejects
with a thrown value. -/
inductive Outcome where
  | returned (r : Response) : Outcome
  | threw (e : Thrown) : Outcome

/-- The `TypeError` of reading property `k` of `undefined` or `null` (the message
is the one of V8). -/
def cannotRead (of_ : String) (k : String) : Thrown :=
  .obj (some (js "Cannot read properties of " ++ js of_ ++ js " (reading \x27" ++ js k ++
    js "\x27)"))

/-- The response of the outer `catch` block for a thrown value with the given
`message` property: `JSON.stringify` leaves out a property that is `undefined`. -/
def catchResponse : Option JsString → Response
  | some m => failureResponse m
  | none =>
    { statusCode := 500, headers := jsonHeaders,
      body := JSON.stringify
        [(js "success", .bool false),
         (js "error", .str (js "Failed to send email"))] }

/-- Lines 105 to 158: the credential check and the verify-then-send sequence. -/
def sendPhaseRaw (t : RawTransport) (env : Env) (to_ subject : Json) (f : Fields) :
    Except Thrown Response × List Step :=
  if !truthyStr env.GMAIL_USER || !truthyStr env.GMAIL_APP_PASSWORD then
    (.ok notConfiguredResponse, [])
  else
    match t.verify env.GMAIL_USER env.GMAIL_APP_PASSWORD with
    | .error e =>
      (.error e, [.createTransport env.GMAIL_USER env.GMAIL_APP_PASSWORD, .verify])
    | .ok _ =>
      match t.sendMail env.GMAIL_USER env.GMAIL_APP_PASSWORD (mailOptions env to_ subject f) with
      | .error e =>
        (.error e, [.createTransport env.GMAIL_USER env.GMAIL_APP_PASSWORD, .verify,
          .sendMail (mailOptions env to_ subject f)])
      | .ok result =>
        (.ok (successResponse result),
          [.createTransport env.GMAIL_USER env.GMAIL_APP_PASSWORD, .verify,
           .sendMail (mailOptions env to_ subject f), .logSent result.messageId])

/-- The outer `try` block, lines 49 to 158, with the call of `JSON.parse` recorded
as its first step. -/
def tryBlockRaw (t : RawTransport) (env : Env) (body : BodyVal) :
    Except Thrown Response × List Step :=
  match JSON.parse body with
  | none => (.ok (badRequest "Invalid JSON in request body"), [.parse body])
  | some emailData =>
    match destructure emailData with
    | .error e => (.error (.obj (some e.message)), [.parse body])
    | .ok f =>
      match truthyVal f.to_ with
      | none => (.ok (badRequest "Missing required field: to"), [.parse body])
      | some to_ =>
        match truthyVal f.subject with
        | none => (.ok (badRequest "Missing required field: subject"), [.parse body])
        | some subject =>
          if !truthy f.text && !truthy f.html then
            (.ok (badRequest "Missing email content: either text or html is required"),
              [.parse body])
          else
            ((sendPhaseRaw t env to_ subject f).1,
              .parse body :: (sendPhaseRaw t env to_ subject f).2)

/-- The function `exports.handler` on an arbitrary event object and transport:
how the invocation ends and the steps it performs. Reading `x-api-key` from
absent headers throws outside the `try` block, and so does reading `message`
from a caught `null` or `undefined` inside the `catch` block. -/
def handlerRaw (t : RawTransport) (env : Env) (event : RawEvent) : Outcome × List Step :=
  if event.httpMethod = some (js "OPTIONS") then
    (.returned { statusCode := 200, headers := corsHeaders, body := js "" }, [])
  else if event.httpMethod ≠ some (js "POST") then
    (.returned { statusCode := 405, headers := jsonHeaders,
                 body := JSON.stringify [(js "error", .str (js "Method Not Allowed"))] }, [])
  else
    match event.headers with
    | none => (.threw (cannotRead "undefined" "x-api-key"), [])
    | some headers =>
      if !truthyStr env.API_KEY || headers.lookup (js "x-api-key") ≠ env.API_KEY then
        (.returned unauthorizedResponse, [])
      else
        match tryBlockRaw t env event.body with
        | (.ok response, steps) => (.returned response, steps)
        | (.error .null, steps) =>
          (.threw (cannotRead "null" "message"), steps ++ [.logError .null])
        | (.error .undefined, steps) =>
          (.threw (cannotRead "undefined" "message"), steps ++ [.logError .undefined])
        | (.error (.obj message), steps) =>
          (.returned (catchResponse message), steps ++ [.logError (.obj message)])

/-- A transport whose failures are errors with a message, as a raw transport. -/
def Transport.toRaw (t : Transport) : RawTransport :=
  { verify := fun u p =>
      match t.verify u p with
      | .ok x => .ok x
      | .error e => .error (.obj (some e.message))
    sendMail := fun u p o =>
      match t.sendMail u p o with
      | .ok x => .ok x
      | .error e => .error (.obj (some e.message)) }

/-- An event with its headers, as a raw event. -/
def Event.toRaw (event : Event) : RawEvent :=
  { httpMethod := event.httpMethod, headers := some event.headers, body := event.body }

/-- The effect recorded by a step, when `t.toRaw` runs; a call of `JSON.parse`
is no effect. -/
def Step.toEffect : Step → Option Effect
  | .parse _ => none
  | .createTransport u p => some (.createTransport u p)
  | .verify => some .verify
  | .sendMail o => some (.sendMail o)
  | .logSent i => some (.logSent i)
  | .logError (.obj (some m)) => some (.logError { message := m })
  | .logError _ => none

/-- A transport whose `verify` rejects with `null`. -/
def nullRejectingTransport : RawTransport :=
  { verify := fun _ _ => .error .null
    sendMail := fun _ _ _ =>
      .ok { messageId := js "m1", accepted := [js "x@y.com"], rejected := [] } }

/-- The transport rejects only with values other than `null` and `undefined`. -/
def RejectsWithObjects (t : RawTransport) : Prop :=
  (∀ u p e, t.verify u p = .error e → ∃ message, e = .obj message) ∧
  (∀ u p o e, t.sendMail u p o = .error e → ∃ message, e = .obj message)

/-- The request is a POST that reaches the key check and fails it: it carries
headers, and `API_KEY` is unset or empty or differs from the `x-api-key`
header. -/
def FailsKeyCheck (env : Env) (event : RawEvent) : Prop :=
  event.httpMethod = some (js "POST") ∧
    ∃ headers, event.headers = some headers ∧
      (truthyStr env.API_KEY = false ∨ headers.lookup (js "x-api-key") ≠ env.API_KEY)

/-! ## Basic facts -/

theorem post_ne_options : js "POST" ≠ js "OPTIONS" := by decide

theorem truthyStr_eq_false (v : Option JsString) :
    truthyStr v = false ↔ v = none ∨ v = some [] := by
  cases v with
  | none => simp [truthyStr]
  | some s => cases s <;> simp [truthyStr]

theorem truthyVal_eq_none (v : Option Json) : truthyVal v = none ↔ truthy v = false := by
  cases v with
  | none => simp [truthyVal, truthy]
  | some w => cases h : w.truthy <;> simp [truthyVal, truthy, h]

theorem truthyVal_eq_some (v : Option Json) (w : Json) :
    truthyVal v = some w ↔ v = some w ∧ w.truthy = true := by
  cases v with
  | none => simp [truthyVal]
  | some u =>
    cases h : u.truthy
    · simp only [truthyVal, h, Bool.false_eq_true, if_false, Option.some.injEq]
      constructor
      · intro h2
        exact Option.noConfusion h2
      · rintro ⟨rfl, h2⟩
        rw [h] at h2
        exact Bool.noConfusion h2
    · simp only [truthyVal, h, if_true, Option.some.injEq]
      constructor
      · rintro rfl
        exact ⟨rfl, h⟩
      · rintro ⟨h1, _⟩
        exact h1

/-- A request that is not a preflight and is a POST with a wrong key gets `401`. -/
theorem handler_unauthorized (t : Transport) (env : Env) (event : Event)
    (hm : event.httpMethod = some (js "POST"))
    (hk : truthyStr env.API_KEY = false ∨ event.headers.lookup (js "x-api-key") ≠ env.API_KEY) :
    handler t env event = (unauthorizedResponse, []) := by
  have h1 : ¬ (some (js "POST") = some (js "OPTIONS")) := by
    intro h
    exact post_ne_options (Option.some.inj h)
  unfold handler
  rw [hm, if_neg h1, if_neg (by simp)]
  rcases hk with hk | hk
  · simp [hk, unauthorizedResponse]
  · simp [hk, unauthorizedResponse]

/-- On an authenticated POST request the handler runs the `try` block and maps a
thrown error to the failure response. -/
theorem handler_authenticated (t : Transport) (env : Env) (event : Event)
    (ha : Authenticated env event) :
    handler t env event =
      match tryBlock t env event with
      | (.ok response, effects) => (response, effects)
      | (.error error, effects) =>
        (failureResponse error.message, effects ++ [.logError error]) := by
  obtain ⟨hm, hk, hh⟩ := ha
  have h1 : ¬ (some (js "POST") = some (js "OPTIONS")) := by
    intro h
    exact post_ne_options (Option.some.inj h)
  unfold handler
  rw [hm, if_neg h1, if_neg (by simp)]
  simp only [hk, hh, failureResponse]
  simp

/-! ## The branches of the `try` block -/

theorem tryBlock_invalid_json (t : Transport) (env : Env) (event : Event)
    (hp : JSON.parse event.body = none) :
    tryBlock t env event = (.ok (badRequest "Invalid JSON in request body"), []) := by
  unfold tryBlock
  rw [hp]
  rfl

theorem tryBlock_throws (t : Transport) (env : Env) (event : Event) (v : Json) (e : JsError)
    (hp : JSON.parse event.body = some v) (hd : destructure v = .error e) :
    tryBlock t env event = (.error e, []) := by
  unfold tryBlock
  rw [hp]
  simp only [hd]

theorem tryBlock_missing_to (t : Transport) (env : Env) (event : Event) (v : Json) (f : Fields)
    (hp : JSON.parse event.body = some v) (hd : destructure v = .ok f)
    (hto : truthy f.to_ = false) :
    tryBlock t env event = (.ok (badRequest "Missing required field: to"), []) := by
  unfold tryBlock
  rw [hp]
  simp only [hd, (truthyVal_eq_none _).2 hto]
  rfl

theorem tryBlock_missing_subject (t : Transport) (env : Env) (event : Event) (v : Json)
    (f : Fields) (hp : JSON.parse event.body = some v) (hd : destructure v = .ok f)
    (hto : truthy f.to_ = true) (hsub : truthy f.subject = false) :
    tryBlock t env event = (.ok (badRequest "Missing required field: subject"), []) := by
  unfold tryBlock
  rw [hp]
  cases hv : truthyVal f.to_ with
  | none => rw [(truthyVal_eq_none _).1 hv] at hto; exact Bool.noConfusion hto
  | some w =>
    simp only [hd, hv, (truthyVal_eq_none _).2 hsub]
    rfl

theorem tryBlock_missing_content (t : Transport) (env : Env) (event : Event) (v : Json)
    (f : Fields) (hp : JSON.parse event.body = some v) (hd : destructure v = .ok f)
    (hto : truthy f.to_ = true) (hsub : truthy f.subject = true)
    (htext : truthy f.text = false) (hhtml : truthy f.html = false) :
    tryBlock t env event =
      (.ok (badRequest "Missing email content: either text or html is required"), []) := by
  unfold tryBlock
  rw [hp]
  cases hv : truthyVal f.to_ with
  | none => rw [(truthyVal_eq_none _).1 hv] at hto; exact Bool.noConfusion hto
  | some w =>
    cases hs : truthyVal f.subject with
    | none => rw [(truthyVal_eq_none _).1 hs] at hsub; exact Bool.noConfusion hsub
    | some u =>
      simp only [hd, hv, hs, htext, hhtml]
      rfl

/-- Past the field checks the `try` block is `sendPhase`. -/
theorem tryBlock_valid (t : Transport) (env : Env) (event : Event) (f : Fields)
    (to_ subject : Json) (hv : PassesValidation event.body f to_ subject) :
    tryBlock t env event = sendPhase t env to_ subject f := by
  obtain ⟨v, hp, hd, hto, htt, hsub, hst, hc⟩ := hv
  have h1 : truthyVal f.to_ = some to_ := (truthyVal_eq_some _ _).2 ⟨hto, htt⟩
  have h2 : truthyVal f.subject = some subject := (truthyVal_eq_some _ _).2 ⟨hsub, hst⟩
  have h3 : (!truthy f.text && !truthy f.html) = false := by
    rcases hc with hc | hc <;> simp [hc]
  unfold tryBlock sendPhase
  rw [hp]
  simp only [hd, h1, h2, h3]
  rfl

theorem sendPhase_not_configured (t : Transport) (env : Env) (to_ subject : Json) (f : Fields)
    (hc : truthyStr env.GMAIL_USER = false ∨ truthyStr env.GMAIL_APP_PASSWORD = false) :
    sendPhase t env to_ subject f = (.ok notConfiguredResponse, []) := by
  unfold sendPhase
  rcases hc with hc | hc <;> simp [hc]

theorem sendPhase_verify_fails (t : Transport) (env : Env) (to_ subject : Json) (f : Fields)
    (e : JsError) (hc : Configured env)
    (hver : t.verify env.GMAIL_USER env.GMAIL_APP_PASSWORD = .error e) :
    sendPhase t env to_ subject f =
      (.error e, [.createTransport env.GMAIL_USER env.GMAIL_APP_PASSWORD, .verify]) := by
  unfold sendPhase
  simp [hc.1, hc.2, hver]

theorem sendPhase_send_fails (t : Transport) (env : Env) (to_ subject : Json) (f : Fields)
    (e : JsError) (hc : Configured env)
    (hver : t.verify env.GMAIL_USER env.GMAIL_APP_PASSWORD = .ok ())
    (hsend : t.sendMail env.GMAIL_USER env.GMAIL_APP_PASSWORD (mailOptions env to_ subject f) =
      .error e) :
    sendPhase t env to_ subject f =
      (.error e, [.createTransport env.GMAIL_USER env.GMAIL_APP_PASSWORD, .verify,
        .sendMail (mailOptions env to_ subject f)]) := by
  unfold sendPhase
  simp [hc.1, hc.2, hver, hsend]

theorem sendPhase_success (t : Transport) (env : Env) (to_ subject : Json) (f : Fields)
    (result : SendResult) (hc : Configured env)
    (hver : t.verify env.GMAIL_USER env.GMAIL_APP_PASSWORD = .ok ())
    (hsend : t.sendMail env.GMAIL_USER env.GMAIL_APP_PASSWORD (mailOptions env to_ subject f) =
      .ok result) :
    sendPhase t env to_ subject f =
      (.ok (successResponse result),
        [.createTransport env.GMAIL_USER env.GMAIL_APP_PASSWORD, .verify,
         .sendMail (mailOptions env to_ subject f), .logSent result.messageId]) := by
  unfold sendPhase
  simp [hc.1, hc.2, hver, hsend]

theorem truthy_eq_true (v : Option Json) :
    truthy v = true ↔ ∃ w, v = some w ∧ w.truthy = true := by
  cases v with
  | none => simp [truthy]
  | some u => simp [truthy]

/-- The outcomes of the `try` block, by the first check that decides. -/
theorem tryBlock_cases (t : Transport) (env : Env) (event : Event) :
    (JSON.parse event.body = none ∧
      tryBlock t env event = (.ok (badRequest "Invalid JSON in request body"), [])) ∨
    (∃ v e, JSON.parse event.body = some v ∧ destructure v = .error e ∧
      tryBlock t env event = (.error e, [])) ∨
    (∃ v f, JSON.parse event.body = some v ∧ destructure v = .ok f ∧
      truthy f.to_ = false ∧
      tryBlock t env event = (.ok (badRequest "Missing required field: to"), [])) ∨
    (∃ v f, JSON.parse event.body = some v ∧ destructure v = .ok f ∧
      truthy f.to_ = true ∧ truthy f.subject = false ∧
      tryBlock t env event = (.ok (badRequest "Missing required field: subject"), [])) ∨
    (∃ v f, JSON.parse event.body = some v ∧ destructure v = .ok f ∧
      truthy f.to_ = true ∧ truthy f.subject = true ∧
      truthy f.text = false ∧ truthy f.html = false ∧
      tryBlock t env event =
        (.ok (badRequest "Missing email content: either text or html is required"), [])) ∨
    (∃ f to_ subject, PassesValidation event.body f to_ subject ∧
      tryBlock t env event = sendPhase t env to_ subject f) := by
  cases hp : JSON.parse event.body with
  | none => exact Or.inl ⟨rfl, tryBlock_invalid_json t env event hp⟩
  | some v =>
    right
    cases hd : destructure v with
    | error e => exact Or.inl ⟨v, e, rfl, hd, tryBlock_throws t env event v e hp hd⟩
    | ok f =>
      right
      cases hto : truthy f.to_ with
      | false => exact Or.inl ⟨v, f, rfl, hd, hto, tryBlock_missing_to t env event v f hp hd hto⟩
      | true =>
        right
        cases hsub : truthy f.subject with
        | false =>
          exact Or.inl ⟨v, f, rfl, hd, hto, hsub,
            tryBlock_missing_subject t env event v f hp hd hto hsub⟩
        | true =>
          right
          by_cases hc : truthy f.text = true ∨ truthy f.html = true
          · right
            obtain ⟨to_, h1, h2⟩ := (truthy_eq_true _).1 hto
            obtain ⟨subject, h3, h4⟩ := (truthy_eq_true _).1 hsub
            have hv : PassesValidation event.body f to_ subject :=
              ⟨v, hp, hd, h1, h2, h3, h4, hc⟩
            exact ⟨f, to_, subject, hv, tryBlock_valid t env event f to_ subject hv⟩
          · left
            simp only [not_or, Bool.not_eq_true] at hc
            exact ⟨v, f, rfl, hd, hto, hsub, hc.1, hc.2,
              tryBlock_missing_content t env event v f hp hd hto hsub hc.1 hc.2⟩

/-- A response returned by `sendPhase` has status 500 or 200. -/
theorem sendPhase_ok_status (t : Transport) (env : Env) (to_ subject : Json) (f : Fields)
    (r : Response) (effects : List Effect)
    (h : sendPhase t env to_ subject f = (.ok r, effects)) :
    r.statusCode = 500 ∨ r.statusCode = 200 := by
  unfold sendPhase at h
  split at h
  · simp only [Prod.mk.injEq, Except.ok.injEq] at h
    rw [← h.1]
    exact Or.inl rfl
  · cases hver : t.verify env.GMAIL_USER env.GMAIL_APP_PASSWORD with
    | error e =>
      rw [hver] at h
      simp only [Prod.mk.injEq] at h
      exact absurd h.1 (by simp)
    | ok u =>
      rw [hver] at h
      cases hsend : t.sendMail env.GMAIL_USER env.GMAIL_APP_PASSWORD
          (mailOptions env to_ subject f) with
      | error e =>
        rw [hsend] at h
        simp only [Prod.mk.injEq] at h
        exact absurd h.1 (by simp)
      | ok result =>
        rw [hsend] at h
        simp only [Prod.mk.injEq, Except.ok.injEq] at h
        rw [← h.1]
        exact Or.inr rfl

/-- A response returned from inside the `try` block has status 400, 500 or 200. -/
theorem tryBlock_ok_status (t : Transport) (env : Env) (event : Event) (r : Response)
    (effects : List Effect) (h : tryBlock t env event = (.ok r, effects)) :
    r.statusCode = 400 ∨ r.statusCode = 500 ∨ r.statusCode = 200 := by
  rcases tryBlock_cases t env event with
    ⟨_, h1⟩ | ⟨_, _, _, _, h1⟩ | ⟨_, _, _, _, _, h1⟩ | ⟨_, _, _, _, _, _, h1⟩ |
    ⟨_, _, _, _, _, _, _, _, h1⟩ | ⟨f, to_, subject, _, h1⟩
  all_goals rw [h1] at h
  · simp only [Prod.mk.injEq, Except.ok.injEq] at h
    rw [← h.1]
    exact Or.inl rfl
  · simp only [Prod.mk.injEq] at h
    exact absurd h.1 (by simp)
  · simp only [Prod.mk.injEq, Except.ok.injEq] at h
    rw [← h.1]
    exact Or.inl rfl
  · simp only [Prod.mk.injEq, Except.ok.injEq] at h
    rw [← h.1]
    exact Or.inl rfl
  · simp only [Prod.mk.injEq, Except.ok.injEq] at h
    rw [← h.1]
    exact Or.inl rfl
  · exact Or.inr (sendPhase_ok_status t env to_ subject f r effects h)

/-- An authenticated POST request never gets status 401. -/
theorem handler_authenticated_status (t : Transport) (env : Env) (event : Event)
    (ha : Authenticated env event) : (handler t env event).1.statusCode ≠ 401 := by
  rw [handler_authenticated t env event ha]
  rcases hb : tryBlock t env event with ⟨r | r, effects⟩
  · simp [failureResponse]
  · have h := tryBlock_ok_status t env event r effects hb
    simp only
    omega

/-- The outcomes of `sendPhase`, by the first step that decides. -/
theorem sendPhase_cases (t : Transport) (env : Env) (to_ subject : Json) (f : Fields) :
    ((truthyStr env.GMAIL_USER = false ∨ truthyStr env.GMAIL_APP_PASSWORD = false) ∧
      sendPhase t env to_ subject f = (.ok notConfiguredResponse, [])) ∨
    (Configured env ∧ ∃ e, t.verify env.GMAIL_USER env.GMAIL_APP_PASSWORD = .error e ∧
      sendPhase t env to_ subject f =
        (.error e, [.createTransport env.GMAIL_USER env.GMAIL_APP_PASSWORD, .verify])) ∨
    (Configured env ∧ t.verify env.GMAIL_USER env.GMAIL_APP_PASSWORD = .ok () ∧
      ∃ e, t.sendMail env.GMAIL_USER env.GMAIL_APP_PASSWORD (mailOptions env to_ subject f) =
          .error e ∧
        sendPhase t env to_ subject f =
          (.error e, [.createTransport env.GMAIL_USER env.GMAIL_APP_PASSWORD, .verify,
            .sendMail (mailOptions env to_ subject f)])) ∨
    (Configured env ∧ t.verify env.GMAIL_USER env.GMAIL_APP_PASSWORD = .ok () ∧
      ∃ result, t.sendMail env.GMAIL_USER env.GMAIL_APP_PASSWORD
          (mailOptions env to_ subject f) = .ok result ∧
        sendPhase t env to_ subject f =
          (.ok (successResponse result),
            [.createTransport env.GMAIL_USER env.GMAIL_APP_PASSWORD, .verify,
             .sendMail (mailOptions env to_ subject f), .logSent result.messageId])) := by
  cases hu : truthyStr env.GMAIL_USER with
  | false => exact Or.inl ⟨Or.inl rfl, sendPhase_not_configured t env to_ subject f (Or.inl hu)⟩
  | true =>
    cases hpw : truthyStr env.GMAIL_APP_PASSWORD with
    | false =>
      exact Or.inl ⟨Or.inr rfl, sendPhase_not_configured t env to_ subject f (Or.inr hpw)⟩
    | true =>
      right
      have hc : Configured env := ⟨hu, hpw⟩
      cases hver : t.verify env.GMAIL_USER env.GMAIL_APP_PASSWORD with
      | error e =>
        exact Or.inl ⟨hc, e, rfl, sendPhase_verify_fails t env to_ subject f e hc hver⟩
      | ok u =>
        right
        cases hsend : t.sendMail env.GMAIL_USER env.GMAIL_APP_PASSWORD
            (mailOptions env to_ subject f) with
        | error e =>
          exact Or.inl ⟨hc, rfl, e, rfl,
            sendPhase_send_fails t env to_ subject f e hc hver hsend⟩
        | ok result =>
          exact Or.inr ⟨hc, rfl, result, rfl,
            sendPhase_success t env to_ subject f result hc hver hsend⟩

/-- The outcomes of the handler before the `try` block, and the `try` block. -/
theorem handler_cases (t : Transport) (env : Env) (event : Event) :
    (event.httpMethod = some (js "OPTIONS") ∧
      handler t env event =
        ({ statusCode := 200, headers := corsHeaders, body := js "" }, [])) ∨
    (event.httpMethod ≠ some (js "OPTIONS") ∧ event.httpMethod ≠ some (js "POST") ∧
      handler t env event =
        ({ statusCode := 405, headers := jsonHeaders,
           body := JSON.stringify [(js "error", .str (js "Method Not Allowed"))] }, [])) ∨
    (event.httpMethod = some (js "POST") ∧
      (truthyStr env.API_KEY = false ∨
        event.headers.lookup (js "x-api-key") ≠ env.API_KEY) ∧
      handler t env event = (unauthorizedResponse, [])) ∨
    (Authenticated env event ∧
      handler t env event =
        match tryBlock t env event with
        | (.ok response, effects) => (response, effects)
        | (.error error, effects) =>
          (failureResponse error.message, effects ++ [.logError error])) := by
  by_cases h1 : event.httpMethod = some (js "OPTIONS")
  · left
    refine ⟨h1, ?_⟩
    unfold handler
    rw [if_pos h1]
  · right
    by_cases h2 : event.httpMethod = some (js "POST")
    · right
      cases hk : truthyStr env.API_KEY with
      | false => exact Or.inl ⟨h2, Or.inl rfl, handler_unauthorized t env event h2 (Or.inl hk)⟩
      | true =>
        by_cases hh : event.headers.lookup (js "x-api-key") = env.API_KEY
        · exact Or.inr ⟨⟨h2, hk, hh⟩, handler_authenticated t env event ⟨h2, hk, hh⟩⟩
        · exact Or.inl ⟨h2, Or.inr hh, handler_unauthorized t env event h2 (Or.inr hh)⟩
    · left
      refine ⟨h1, h2, ?_⟩
      unfold handler
      rw [if_neg h1, if_pos h2]

/-- Whenever `sendMail` is among the effects, every gate was passed and the
message is the one built from the validated payload. -/
theorem sendMail_effect (t : Transport) (env : Env) (event : Event) (opts : MailOptions)
    (h : Effect.sendMail opts ∈ (handler t env event).2) :
    Authenticated env event ∧ Configured env ∧
      t.verify env.GMAIL_USER env.GMAIL_APP_PASSWORD = .ok () ∧
      ∃ f to_ subject, PassesValidation event.body f to_ subject ∧
        opts = mailOptions env to_ subject f := by
  rcases handler_cases t env event with ⟨_, h1⟩ | ⟨_, _, h1⟩ | ⟨_, _, h1⟩ | ⟨ha, h1⟩
  · rw [h1] at h
    simp at h
  · rw [h1] at h
    simp at h
  · rw [h1] at h
    simp at h
  · rw [h1] at h
    rcases tryBlock_cases t env event with
      ⟨_, h2⟩ | ⟨_, _, _, _, h2⟩ | ⟨_, _, _, _, _, h2⟩ | ⟨_, _, _, _, _, _, h2⟩ |
      ⟨_, _, _, _, _, _, _, _, h2⟩ | ⟨f, to_, subject, hv, h2⟩
    · rw [h2] at h
      simp at h
    · rw [h2] at h
      simp at h
    · rw [h2] at h
      simp at h
    · rw [h2] at h
      simp at h
    · rw [h2] at h
      simp at h
    · rw [h2] at h
      rcases sendPhase_cases t env to_ subject f with
        ⟨_, h3⟩ | ⟨_, _, _, h3⟩ | ⟨hc, hver, _, _, h3⟩ | ⟨hc, hver, _, _, h3⟩
      · rw [h3] at h
        simp at h
      · rw [h3] at h
        simp at h
      · rw [h3] at h
        simp at h
        exact ⟨ha, hc, hver, f, to_, subject, hv, h⟩
      · rw [h3] at h
        simp at h
        exact ⟨ha, hc, hver, f, to_, subject, hv, h⟩

theorem destructure_ok (v : Json) (f : Fields) (h : destructure v = .ok f) :
    v ≠ .null ∧
      f = { to_ := getProp (js "to") v, subject := getProp (js "subject") v,
            text := getProp (js "text") v, html := getProp (js "html") v,
            from_ := getProp (js "from") v } := by
  cases v <;> simp only [destructure, Except.ok.injEq, reduceCtorEq] at h <;>
    exact ⟨by simp, h.symm⟩

theorem destructure_of_ne_null (v : Json) (hn : v ≠ .null) :
    destructure v =
      .ok { to_ := getProp (js "to") v, subject := getProp (js "subject") v,
            text := getProp (js "text") v, html := getProp (js "html") v,
            from_ := getProp (js "from") v } := by
  cases v <;> first | exact absurd rfl hn | rfl

/-- An authenticated POST request whose body does not parse gets the `400`
response `Invalid JSON in request body`, whatever the rest of the environment. -/
theorem invalid_json_response (t : Transport) (env : Env) (event : Event)
    (ha : Authenticated env event) (hp : JSON.parse event.body = none) :
    handler t env event = (badRequest "Invalid JSON in request body", []) := by
  rw [handler_authenticated t env event ha, tryBlock_invalid_json t env event hp]

/-- An authenticated POST request whose body parses to a value other than `null`
without a `to` property gets the `400` response `Missing required field: to`. -/
theorem missing_to_of_ne_null (t : Transport) (env : Env) (event : Event) (v : Json)
    (ha : Authenticated env event) (hp : JSON.parse event.body = some v) (hn : v ≠ .null)
    (hto : getProp (js "to") v = none) :
    handler t env event = (badRequest "Missing required field: to", []) := by
  rw [handler_authenticated t env event ha,
    tryBlock_missing_to t env event v _ hp (destructure_of_ne_null v hn) (by rw [hto]; rfl)]

/-- An authenticated POST request whose body parses to `null` gets the failure
response carrying the message of the `TypeError` thrown by the destructuring. -/
theorem null_payload_response (t : Transport) (env : Env) (event : Event)
    (ha : Authenticated env event) (hp : JSON.parse event.body = some .null) :
    handler t env event =
      (failureResponse
          (js "Cannot destructure property \x27to\x27 of \x27emailData\x27 as it is null."),
        [.logError
          { message :=
              js "Cannot destructure property \x27to\x27 of \x27emailData\x27 as it is null." }]) := by
  rw [handler_authenticated t env event ha, tryBlock_throws t env event .null _ hp rfl]
  rfl

theorem sampleBody_passes :
    PassesValidation (.str sampleBody) sampleFields (.str (js "x@y.com")) (.str (js "Hi")) :=
  ⟨_, rfl, rfl, rfl, rfl, rfl, rfl, Or.inl rfl⟩

theorem samplePost_authenticated (body : BodyVal) : Authenticated sampleEnv (samplePost body) :=
  ⟨rfl, rfl, rfl⟩

/-! ## Reading back what `JSON.stringify` writes -/

theorem hexVal_hexDigit (n : Nat) (h : n < 16) : hexVal (hexDigit n) = some n := by
  interval_cases n <;> rfl

theorem hex4_uEscape (c : Nat) (h : c < 65536) :
    hex4 (hexDigit (c / 4096 % 16)) (hexDigit (c / 256 % 16)) (hexDigit (c / 16 % 16))
      (hexDigit (c % 16)) = some c := by
  unfold hex4
  rw [hexVal_hexDigit _ (Nat.mod_lt _ (by norm_num)), hexVal_hexDigit _ (Nat.mod_lt _ (by norm_num)),
    hexVal_hexDigit _ (Nat.mod_lt _ (by norm_num)), hexVal_hexDigit _ (Nat.mod_lt _ (by norm_num))]
  simp only [Option.some.injEq]
  omega

/-- A code unit that needs no escape is read as itself. -/
theorem parseStringChars_plain (fuel c : Nat) (tail : List Nat) (h1 : c ≠ 34) (h2 : c ≠ 92)
    (h3 : ¬ c < 32) :
    parseStringChars (fuel + 1) (c :: tail) =
      (parseStringChars fuel tail).map fun p => (c :: p.1, p.2) := by
  simp only [parseStringChars, if_neg h1, if_neg h2, if_neg h3]

theorem parseStringChars_simple (fuel e u : Nat) (tail : List Nat) (h1 : e ≠ 117)
    (h2 : simpleEscape e = some u) :
    parseStringChars (fuel + 1) (92 :: e :: tail) =
      (parseStringChars fuel tail).map fun p => (u :: p.1, p.2) := by
  simp [parseStringChars, h1, h2]

theorem parseStringChars_uEscape (fuel c : Nat) (tail : List Nat) (h : c < 65536) :
    parseStringChars (fuel + 1) (uEscape c ++ tail) =
      (parseStringChars fuel tail).map fun p => (c :: p.1, p.2) := by
  simp [parseStringChars, uEscape, hex4_uEscape c h]

/-- What `escapeUnit` writes for a code unit is read back as that code unit. -/
theorem parseStringChars_escapeUnit (fuel c : Nat) (tail : List Nat) :
    parseStringChars (fuel + 1) (escapeUnit c ++ tail) =
      (parseStringChars fuel tail).map fun p => (c :: p.1, p.2) := by
  unfold escapeUnit
  split_ifs with h1 h2 h3 h4 h5 h6 h7 h8 h9
  · subst h1; exact parseStringChars_simple fuel 98 8 tail (by decide) rfl
  · subst h2; exact parseStringChars_simple fuel 116 9 tail (by decide) rfl
  · subst h3; exact parseStringChars_simple fuel 110 10 tail (by decide) rfl
  · subst h4; exact parseStringChars_simple fuel 102 12 tail (by decide) rfl
  · subst h5; exact parseStringChars_simple fuel 114 13 tail (by decide) rfl
  · subst h6; exact parseStringChars_simple fuel 34 34 tail (by decide) rfl
  · subst h7; exact parseStringChars_simple fuel 92 92 tail (by decide) rfl
  · exact parseStringChars_uEscape fuel c tail (by omega)
  · exact parseStringChars_uEscape fuel c tail (by omega)
  · exact parseStringChars_plain fuel c tail h6 h7 h8

theorem length_quoteChars (s : List Nat) : s.length ≤ (quoteChars s).length := by
  induction s using quoteChars.induct with
  | case1 => simp [quoteChars]
  | case2 c =>
    simp only [quoteChars, List.length_singleton]
    unfold escapeUnit
    split_ifs <;> simp [uEscape]
  | case3 c d rest h ih =>
    simp only [quoteChars, if_pos h, List.length_cons]
    omega
  | case4 c d rest h ih =>
    simp only [quoteChars, if_neg h, List.length_cons, List.length_append] at ih ⊢
    have : 1 ≤ (escapeUnit c).length := by
      unfold escapeUnit
      split_ifs <;> simp [uEscape]
    omega

/-- A written string, up to its closing quote, is read back as the string. -/
theorem parseStringChars_quoteChars (s : List Nat) :
    ∀ (fuel : Nat) (tail : List Nat), s.length + 1 ≤ fuel →
      parseStringChars fuel (quoteChars s ++ 34 :: tail) = some (s, tail) := by
  induction s using quoteChars.induct with
  | case1 =>
    intro fuel tail hf
    obtain ⟨k, rfl⟩ : ∃ k, fuel = k + 1 := ⟨fuel - 1, by simp at hf; omega⟩
    simp [quoteChars, parseStringChars]
  | case2 c =>
    intro fuel tail hf
    obtain ⟨k, rfl⟩ : ∃ k, fuel = k + 1 + 1 := ⟨fuel - 2, by simp at hf; omega⟩
    simp only [quoteChars]
    rw [parseStringChars_escapeUnit]
    simp [parseStringChars]
  | case3 c d rest h ih =>
    intro fuel tail hf
    obtain ⟨k, rfl⟩ : ∃ k, fuel = k + 1 + 1 := ⟨fuel - 2, by simp at hf; omega⟩
    simp only [quoteChars, if_pos h, List.cons_append]
    rw [parseStringChars_plain _ _ _ (by omega) (by omega) (by omega),
      parseStringChars_plain _ _ _ (by omega) (by omega) (by omega),
      ih k tail (by simp at hf; omega)]
    rfl
  | case4 c d rest h ih =>
    intro fuel tail hf
    obtain ⟨k, rfl⟩ : ∃ k, fuel = k + 1 := ⟨fuel - 1, by simp at hf; omega⟩
    simp only [quoteChars, if_neg h, List.append_assoc]
    rw [parseStringChars_escapeUnit, ih k tail (by simp at hf ⊢; omega)]
    rfl

theorem skipWs_of_not_ws (c : Nat) (r : List Nat) (h : isWs c = false) :
    skipWs (c :: r) = c :: r := by
  simp [skipWs, h]

/-- A written string is read back by `parseString`. -/
theorem parseString_quote (s : List Nat) (tail : List Nat) :
    parseString (quoteChars s ++ 34 :: tail) = some (s, tail) := by
  unfold parseString
  apply parseStringChars_quoteChars
  have := length_quoteChars s
  simp only [List.length_append, List.length_cons]
  omega

theorem parseValue_quote (fuel : Nat) (s : List Nat) (tail : List Nat) :
    parseValue (fuel + 1) (quote s ++ tail) = some (.str s, tail) := by
  simp [quote, parseValue, parseString_quote]

theorem intercalate_cons_cons {α : Type} (sep x y : List α) (ys : List (List α)) :
    List.intercalate sep (x :: y :: ys) = x ++ sep ++ List.intercalate sep (y :: ys) := by
  simp [List.intercalate, List.intersperse]

theorem intercalate_quote_head (x : List Nat) (xs : List (List Nat)) (t : List Nat) :
    ∃ r, List.intercalate [44] ((x :: xs).map quote) ++ t = 34 :: r := by
  cases xs with
  | nil =>
    simp only [List.map_cons, List.map_nil, List.intercalate, List.intersperse, List.flatten,
      quote, List.cons_append, List.append_nil]
    exact ⟨_, rfl⟩
  | cons z zs =>
    rw [List.map_cons, List.map_cons, intercalate_cons_cons]
    simp only [quote, List.cons_append]
    exact ⟨_, rfl⟩

/-- The written elements of a non-empty list of strings, up to the closing
bracket, are read back as these strings. -/
theorem parseElements_quotes (x : List Nat) (xs : List (List Nat)) :
    ∀ (fuel : Nat) (tail : List Nat), xs.length + 2 ≤ fuel →
      parseElements fuel (List.intercalate [44] ((x :: xs).map quote) ++ 93 :: tail) =
        some ((x :: xs).map Json.str, tail) := by
  induction xs generalizing x with
  | nil =>
    intro fuel tail hf
    obtain ⟨k, rfl⟩ : ∃ k, fuel = k + 1 + 1 := ⟨fuel - 2, by simp at hf; omega⟩
    simp [List.intercalate, parseElements, parseValue_quote, skipWs, isWs]
  | cons y ys ih =>
    intro fuel tail hf
    obtain ⟨k, rfl⟩ : ∃ k, fuel = k + 1 + 1 := ⟨fuel - 2, by simp at hf; omega⟩
    have h1 := ih y (k + 1) tail (by simp at hf ⊢; omega)
    obtain ⟨r, hr⟩ := intercalate_quote_head y ys (93 :: tail)
    rw [hr] at h1
    rw [List.map_cons, List.map_cons, intercalate_cons_cons, ← List.map_cons]
    simp only [List.append_assoc, List.singleton_append, List.cons_append]
    rw [hr]
    unfold parseElements
    rw [parseValue_quote]
    simp only [List.map_cons] at h1 ⊢
    simp [skipWs, isWs, h1]

theorem js_true : js "true" = [116, 114, 117, 101] := by decide

theorem js_false : js "false" = [102, 97, 108, 115, 101] := by decide

/-- A written payload value is read back as the value it stands for. -/
theorem parseValue_stringify (v : RespVal) (fuel : Nat) (tail : List Nat)
    (hf : v.parseFuel ≤ fuel) :
    parseValue fuel (v.stringify ++ tail) = some (v.toJson, tail) := by
  cases v with
  | str s =>
    obtain ⟨k, rfl⟩ : ∃ k, fuel = k + 1 := ⟨fuel - 1, by simp [RespVal.parseFuel] at hf; omega⟩
    exact parseValue_quote k s tail
  | bool b =>
    obtain ⟨k, rfl⟩ : ∃ k, fuel = k + 1 := ⟨fuel - 1, by simp [RespVal.parseFuel] at hf; omega⟩
    cases b
    · simp [RespVal.stringify, RespVal.toJson, js_false, parseValue, stripLit]
    · simp [RespVal.stringify, RespVal.toJson, js_true, parseValue, stripLit]
  | strs xs =>
    obtain ⟨k, rfl⟩ : ∃ k, fuel = k + 1 := ⟨fuel - 1, by simp [RespVal.parseFuel] at hf; omega⟩
    cases xs with
    | nil => simp [RespVal.stringify, RespVal.toJson, List.intercalate, parseValue, skipWs, isWs]
    | cons x xs =>
      have h1 := parseElements_quotes x xs k tail (by simp [RespVal.parseFuel] at hf; omega)
      obtain ⟨r, hr⟩ := intercalate_quote_head x xs (93 :: tail)
      rw [hr] at h1
      simp only [RespVal.stringify, RespVal.toJson, List.cons_append, List.append_assoc,
        List.singleton_append, List.nil_append]
      rw [hr]
      unfold parseValue
      simp only [List.map_cons] at h1 ⊢
      simp [skipWs, isWs, h1]

theorem intercalate_map_cons_cons {α β : Type} (f : α → List β) (sep : List β) (a b : α)
    (l : List α) :
    List.intercalate sep ((a :: b :: l).map f) =
      f a ++ sep ++ List.intercalate sep ((b :: l).map f) := by
  simp [List.intercalate, List.intersperse]

theorem intercalate_map_singleton {α β : Type} (f : α → List β) (sep : List β) (a : α) :
    List.intercalate sep ([a].map f) = f a := by
  simp [List.intercalate, List.intersperse]

theorem length_quote (s : List Nat) : 2 ≤ (quote s).length := by
  simp [quote]

theorem length_intercalate_quotes (xs : List (List Nat)) :
    xs.length ≤ (List.intercalate [44] (xs.map quote)).length := by
  induction xs with
  | nil => simp
  | cons x xs ih =>
    cases xs with
    | nil =>
      have := length_quote x
      simp only [List.map_cons, List.map_nil, List.intercalate, List.intersperse, List.flatten,
        List.append_nil, List.length_singleton]
      omega
    | cons y ys =>
      rw [List.map_cons, List.map_cons, intercalate_cons_cons, ← List.map_cons]
      have := length_quote x
      simp only [List.length_append, List.length_cons] at ih ⊢
      omega

theorem length_stringify (v : RespVal) : v.parseFuel ≤ v.stringify.length := by
  cases v with
  | str s =>
    have := length_quote s
    simp only [RespVal.parseFuel, RespVal.stringify]
    omega
  | bool b => cases b <;> simp [RespVal.parseFuel, RespVal.stringify, js_true, js_false]
  | strs xs =>
    have := length_intercalate_quotes xs
    simp only [RespVal.parseFuel, RespVal.stringify, List.length_cons, List.length_append,
      List.length_singleton, List.length_nil]
    omega

theorem length_intercalate_fields (fields : List (JsString × RespVal)) :
    fieldsFuel fields ≤
      (List.intercalate [44]
        (fields.map fun kv => quote kv.1 ++ 58 :: kv.2.stringify)).length := by
  induction fields with
  | nil => simp [fieldsFuel]
  | cons kv rest ih =>
    have h1 := length_quote kv.1
    have h2 := length_stringify kv.2
    cases rest with
    | nil =>
      rw [intercalate_map_singleton]
      simp only [fieldsFuel, List.length_append, List.length_cons]
      omega
    | cons kv2 rest2 =>
      rw [intercalate_map_cons_cons]
      simp only [fieldsFuel, List.length_append, List.length_cons] at ih ⊢
      omega

theorem stringify_head (v : RespVal) (t : List Nat) :
    ∃ c r, v.stringify ++ t = c :: r ∧ isWs c = false := by
  cases v with
  | str s =>
    simp only [RespVal.stringify, quote, List.cons_append]
    exact ⟨_, _, rfl, by decide⟩
  | bool b =>
    cases b
    · simp only [RespVal.stringify, js_false, List.cons_append]
      exact ⟨_, _, rfl, by decide⟩
    · simp only [RespVal.stringify, js_true, List.cons_append]
      exact ⟨_, _, rfl, by decide⟩
  | strs xs =>
    simp only [RespVal.stringify, List.cons_append]
    exact ⟨_, _, rfl, by decide⟩

theorem intercalate_fields_head (kv : JsString × RespVal) (rest : List (JsString × RespVal))
    (t : List Nat) :
    ∃ r, List.intercalate [44]
        ((kv :: rest).map fun kv => quote kv.1 ++ 58 :: kv.2.stringify) ++ t = 34 :: r := by
  cases rest with
  | nil =>
    rw [intercalate_map_singleton]
    simp only [quote, List.cons_append]
    exact ⟨_, rfl⟩
  | cons z zs =>
    rw [intercalate_map_cons_cons]
    simp only [quote, List.cons_append]
    exact ⟨_, rfl⟩

/-- One written property followed by `next` is read as the key, the colon and the
value, leaving `next`. -/
theorem parseMembers_step (k : Nat) (kv : JsString × RespVal) (next : List Nat)
    (hf : kv.2.parseFuel ≤ k) :
    parseMembers (k + 1) (quote kv.1 ++ 58 :: (kv.2.stringify ++ next)) =
      match skipWs next with
      | [] => none
      | e :: r4 =>
        if e = 44 then
          (parseMembers k (skipWs r4)).map fun p => ((kv.1, kv.2.toJson) :: p.1, p.2)
        else if e = 125 then some ([(kv.1, kv.2.toJson)], r4)
        else none := by
  obtain ⟨c, r, hc, hws⟩ := stringify_head kv.2 next
  have hv := parseValue_stringify kv.2 k next hf
  rw [hc] at hv
  simp only [quote, List.cons_append, List.append_assoc, List.singleton_append,
    List.nil_append]
  rw [hc]
  conv_lhs => unfold parseMembers
  simp only [if_true, parseString_quote]
  rw [skipWs_of_not_ws 58 _ (by decide)]
  simp only [if_true]
  rw [skipWs_of_not_ws c r hws, hv]

/-- The written properties of a non-empty object, up to the closing brace, are
read back as the properties. -/
theorem parseMembers_fields (kv : JsString × RespVal) (rest : List (JsString × RespVal)) :
    ∀ (fuel : Nat) (tail : List Nat), fieldsFuel (kv :: rest) ≤ fuel →
      parseMembers fuel
          (List.intercalate [44]
            ((kv :: rest).map fun kv => quote kv.1 ++ 58 :: kv.2.stringify) ++ 125 :: tail) =
        some ((kv :: rest).map fun kv => (kv.1, kv.2.toJson), tail) := by
  induction rest generalizing kv with
  | nil =>
    intro fuel tail hf
    obtain ⟨k, rfl⟩ : ∃ k, fuel = k + 1 := ⟨fuel - 1, by simp [fieldsFuel] at hf; omega⟩
    have h := parseMembers_step k kv (125 :: tail) (by simp [fieldsFuel] at hf; omega)
    rw [intercalate_map_singleton]
    simp only [List.append_assoc, List.cons_append]
    rw [h]
    simp [skipWs, isWs]
  | cons kv2 rest2 ih =>
    intro fuel tail hf
    obtain ⟨k, rfl⟩ : ∃ k, fuel = k + 1 := ⟨fuel - 1, by simp [fieldsFuel] at hf; omega⟩
    have h1 := ih kv2 k tail (by simp only [fieldsFuel] at hf ⊢; omega)
    obtain ⟨r, hr⟩ := intercalate_fields_head kv2 rest2 (125 :: tail)
    rw [hr] at h1
    rw [intercalate_map_cons_cons]
    simp only [List.append_assoc, List.singleton_append, List.cons_append, List.nil_append]
    rw [hr]
    have h := parseMembers_step k kv (44 :: 34 :: r) (by simp only [fieldsFuel] at hf; omega)
    rw [h]
    simp only [List.map_cons] at h1 ⊢
    simp [skipWs, isWs, h1]

/-- Reading what `JSON.stringify` writes for an object literal gives an object
with the same properties in the same order. -/
theorem parseText_stringify (fields : List (JsString × RespVal)) :
    parseText (JSON.stringify fields) =
      some (.obj (fields.map fun kv => (kv.1, kv.2.toJson))) := by
  unfold parseText JSON.stringify
  simp only [List.cons_append]
  rw [skipWs_of_not_ws 123 _ (by decide)]
  cases fields with
  | nil => simp [List.intercalate, parseValue, skipWs, isWs]
  | cons kv rest =>
    have hlen := length_intercalate_fields (kv :: rest)
    obtain ⟨r, hr⟩ := intercalate_fields_head kv rest [125]
    have h1 := parseMembers_fields kv rest
      (2 * (123 :: (List.intercalate [44]
        ((kv :: rest).map fun kv => quote kv.1 ++ 58 :: kv.2.stringify) ++ [125])).length + 1) []
      (by simp only [List.length_cons, List.length_append] ; omega)
    rw [hr] at h1
    rw [hr]
    unfold parseValue
    simp only [List.map_cons, List.length_cons] at h1 ⊢
    simp [skipWs, isWs, h1]

/-! ## The fuel of the parser -/

theorem skipWs_length_le (s : List Nat) : (skipWs s).length ≤ s.length := by
  induction s with
  | nil => simp [skipWs]
  | cons c cs ih =>
    unfold skipWs
    split_ifs
    · simp only [List.length_cons]; omega
    · exact le_refl _

theorem takeDigits_length_le (s : List Nat) : (takeDigits s).2.length ≤ s.length := by
  induction s with
  | nil => simp [takeDigits]
  | cons c cs ih =>
    unfold takeDigits
    split_ifs
    · simp only [List.length_cons]; omega
    · exact le_refl _

theorem takeDigits_length_lt (s ds r : List Nat) (h : takeDigits s = (ds, r)) (hd : ds ≠ []) :
    r.length < s.length := by
  cases s with
  | nil => simp [takeDigits] at h; exact absurd h.1 hd
  | cons c cs =>
    unfold takeDigits at h
    split_ifs at h
    · have := takeDigits_length_le cs
      simp only [Prod.mk.injEq] at h
      rw [← h.2]
      simp only [List.length_cons]
      omega
    · simp only [Prod.mk.injEq] at h
      exact absurd h.1.symm hd

theorem stripLit_length_le (l s r : List Nat) (h : stripLit l s = some r) :
    r.length ≤ s.length := by
  induction l generalizing s with
  | nil => simp [stripLit] at h; rw [h]
  | cons a l ih =>
    cases s with
    | nil => simp [stripLit] at h
    | cons c cs =>
      unfold stripLit at h
      split_ifs at h
      have := ih cs h
      simp only [List.length_cons]
      omega

theorem parseIntPart_length (s ds r : List Nat) (h : parseIntPart s = some (ds, r)) :
    r.length < s.length := by
  unfold parseIntPart at h
  split at h
  · simp only [Option.some.injEq, Prod.mk.injEq] at h
    rw [← h.2]
    simp
  · split at h
    · exact Option.noConfusion h
    · rename_i ds1 r1 hne heq
      simp only [Option.some.injEq, Prod.mk.injEq] at h
      rw [← h.2]
      exact takeDigits_length_lt _ ds1 r1 heq (fun hnil => hne hnil)

theorem parseFracPart_length (s ds r : List Nat) (h : parseFracPart s = some (ds, r)) :
    r.length ≤ s.length := by
  unfold parseFracPart at h
  split at h
  · split at h
    · exact Option.noConfusion h
    · rename_i r0 x ds1 r1 hne heq
      simp only [Option.some.injEq, Prod.mk.injEq] at h
      rw [← h.2]
      have := takeDigits_length_le r0
      rw [heq] at this
      simp only [List.length_cons]
      simp only at this
      omega
  · simp only [Option.some.injEq, Prod.mk.injEq] at h
    rw [← h.2]

theorem parseExpDigits_length (s : List Nat) (n : Nat) (r : List Nat)
    (h : parseExpDigits s = some (n, r)) : r.length ≤ s.length := by
  unfold parseExpDigits at h
  split at h
  · exact Option.noConfusion h
  · rename_i ds1 r1 hne heq
    simp only [Option.some.injEq, Prod.mk.injEq] at h
    rw [← h.2]
    have := takeDigits_length_le s
    rw [heq] at this
    exact this

theorem parseExpPart_length (s : List Nat) (e : Int) (r : List Nat)
    (h : parseExpPart s = some (e, r)) : r.length ≤ s.length := by
  unfold parseExpPart at h
  split at h
  · split_ifs at h
    · split at h
      all_goals
        simp only [Option.map_eq_some', Prod.mk.injEq] at h
        obtain ⟨⟨n, r1⟩, h1, _, h2⟩ := h
        have := parseExpDigits_length _ n r1 h1
        simp only at h2
        rw [← h2]
        simp only [List.length_cons] at this ⊢
        omega
    · simp only [Option.some.injEq, Prod.mk.injEq] at h
      rw [← h.2]
  · simp only [Option.some.injEq, Prod.mk.injEq] at h
    rw [← h.2]

theorem parseUnsigned_length (neg : Bool) (s : List Nat) (v : Json) (r : List Nat)
    (h : parseUnsigned neg s = some (v, r)) : r.length < s.length := by
  unfold parseUnsigned at h
  split at h
  · exact Option.noConfusion h
  · rename_i ip s1 h1
    split at h
    · exact Option.noConfusion h
    · rename_i fp s2 h2
      split at h
      · exact Option.noConfusion h
      · rename_i e s3 h3
        simp only [Option.some.injEq, Prod.mk.injEq] at h
        rw [← h.2]
        have a := parseIntPart_length _ _ _ h1
        have b := parseFracPart_length _ _ _ h2
        have c := parseExpPart_length _ _ _ h3
        omega

theorem parseNumber_length (s : List Nat) (v : Json) (r : List Nat)
    (h : parseNumber s = some (v, r)) : r.length < s.length := by
  unfold parseNumber at h
  split at h
  · have := parseUnsigned_length _ _ _ _ h
    simp only [List.length_cons]
    omega
  · exact parseUnsigned_length _ _ _ _ h

theorem parseStringChars_length (fuel : Nat) :
    ∀ (s : List Nat) (x : JsString) (r : List Nat),
      parseStringChars fuel s = some (x, r) → r.length < s.length := by
  induction fuel with
  | zero => intro s x r h; simp [parseStringChars] at h
  | succ f ih =>
    intro s x r h
    cases s with
    | nil => simp [parseStringChars] at h
    | cons c rest =>
      unfold parseStringChars at h
      split_ifs at h with h1 h2 h3
      · simp only [Option.some.injEq, Prod.mk.injEq] at h
        rw [← h.2]
        simp
      · split at h
        · exact Option.noConfusion h
        · rename_i e rest1
          split_ifs at h
          · split at h
            · rename_i a b c1 d rest2
              split at h
              · exact Option.noConfusion h
              · simp only [Option.map_eq_some', Prod.mk.injEq] at h
                obtain ⟨⟨x1, r1⟩, h4, _, h5⟩ := h
                have := ih _ _ _ h4
                simp only at h5
                rw [← h5]
                simp only [List.length_cons]
                omega
            · exact Option.noConfusion h
          · split at h
            · exact Option.noConfusion h
            · simp only [Option.map_eq_some', Prod.mk.injEq] at h
              obtain ⟨⟨x1, r1⟩, h4, _, h5⟩ := h
              have := ih _ _ _ h4
              simp only at h5
              rw [← h5]
              simp only [List.length_cons]
              omega
      · simp only [Option.map_eq_some', Prod.mk.injEq] at h
        obtain ⟨⟨x1, r1⟩, h4, _, h5⟩ := h
        have := ih _ _ _ h4
        simp only at h5
        rw [← h5]
        simp only [List.length_cons]
        omega

theorem parseString_length (s : List Nat) (x : JsString) (r : List Nat)
    (h : parseString s = some (x, r)) : r.length < s.length :=
  parseStringChars_length _ s x r h

/-- Each of the three mutually recursive readers consumes input when it succeeds. -/
theorem parse_consumes (fuel : Nat) :
    (∀ s v r, parseValue fuel s = some (v, r) → r.length < s.length) ∧
    (∀ s vs r, parseElements fuel s = some (vs, r) → r.length < s.length) ∧
    (∀ s ms r, parseMembers fuel s = some (ms, r) → r.length < s.length) := by
  induction fuel with
  | zero =>
    refine ⟨?_, ?_, ?_⟩ <;> intro s v r h
    · simp [parseValue] at h
    · simp [parseElements] at h
    · simp [parseMembers] at h
  | succ f ih =>
    obtain ⟨ihv, ihe, ihm⟩ := ih
    refine ⟨?_, ?_, ?_⟩
    · intro s v r h
      cases s with
      | nil => simp [parseValue] at h
      | cons c r0 =>
        have hl := skipWs_length_le r0
        simp only [parseValue] at h
        split_ifs at h
        · simp only [Option.map_eq_some', Prod.mk.injEq] at h
          obtain ⟨r1, h1, _, h2⟩ := h
          have := stripLit_length_le _ _ _ h1
          rw [← h2]
          simp only [List.length_cons]
          omega
        · simp only [Option.map_eq_some', Prod.mk.injEq] at h
          obtain ⟨r1, h1, _, h2⟩ := h
          have := stripLit_length_le _ _ _ h1
          rw [← h2]
          simp only [List.length_cons]
          omega
        · simp only [Option.map_eq_some', Prod.mk.injEq] at h
          obtain ⟨r1, h1, _, h2⟩ := h
          have := stripLit_length_le _ _ _ h1
          rw [← h2]
          simp only [List.length_cons]
          omega
        · simp only [Option.map_eq_some', Prod.mk.injEq] at h
          obtain ⟨⟨x, r1⟩, h1, _, h2⟩ := h
          have := parseString_length _ _ _ h1
          simp only at h2
          rw [← h2]
          simp only [List.length_cons]
          omega
        · cases hs : skipWs r0 with
          | nil => rw [hs] at h; exact Option.noConfusion h
          | cons d r1 =>
            rw [hs] at h hl
            simp only at h
            split_ifs at h
            · simp only [Option.some.injEq, Prod.mk.injEq] at h
              rw [← h.2]
              simp only [List.length_cons] at hl ⊢
              omega
            · simp only [Option.map_eq_some', Prod.mk.injEq] at h
              obtain ⟨⟨x, r2⟩, h1, _, h2⟩ := h
              have := ihe _ _ _ h1
              simp only at h2
              rw [← h2]
              simp only [List.length_cons] at hl this ⊢
              omega
        · cases hs : skipWs r0 with
          | nil => rw [hs] at h; exact Option.noConfusion h
          | cons d r1 =>
            rw [hs] at h hl
            simp only at h
            split_ifs at h
            · simp only [Option.some.injEq, Prod.mk.injEq] at h
              rw [← h.2]
              simp only [List.length_cons] at hl ⊢
              omega
            · simp only [Option.map_eq_some', Prod.mk.injEq] at h
              obtain ⟨⟨x, r2⟩, h1, _, h2⟩ := h
              have := ihm _ _ _ h1
              simp only at h2
              rw [← h2]
              simp only [List.length_cons] at hl this ⊢
              omega
        · exact parseNumber_length _ _ _ h
    · intro s vs r h
      simp only [parseElements] at h
      cases hv : parseValue f s with
      | none => rw [hv] at h; exact Option.noConfusion h
      | some p =>
        obtain ⟨v, r0⟩ := p
        have h0 := ihv _ _ _ hv
        have hl := skipWs_length_le r0
        rw [hv] at h
        simp only at h
        cases hs : skipWs r0 with
        | nil => rw [hs] at h; exact Option.noConfusion h
        | cons d r1 =>
          rw [hs] at h hl
          simp only at h
          have hl2 := skipWs_length_le r1
          split_ifs at h
          · simp only [Option.map_eq_some', Prod.mk.injEq] at h
            obtain ⟨⟨x, r2⟩, h1, _, h2⟩ := h
            have := ihe _ _ _ h1
            simp only at h2
            rw [← h2]
            simp only [List.length_cons] at hl this ⊢
            omega
          · simp only [Option.some.injEq, Prod.mk.injEq] at h
            rw [← h.2]
            simp only [List.length_cons] at hl ⊢
            omega
    · intro s ms r h
      cases s with
      | nil => simp [parseMembers] at h
      | cons c r0 =>
        simp only [parseMembers] at h
        split_ifs at h
        cases hk : parseString r0 with
        | none => rw [hk] at h; exact Option.noConfusion h
        | some p =>
          obtain ⟨k, r1⟩ := p
          have h0 := parseString_length _ _ _ hk
          have hl1 := skipWs_length_le r1
          rw [hk] at h
          simp only at h
          cases hs : skipWs r1 with
          | nil => rw [hs] at h; exact Option.noConfusion h
          | cons d r2 =>
            rw [hs] at h hl1
            simp only at h
            have hl2 := skipWs_length_le r2
            split_ifs at h
            cases hv : parseValue f (skipWs r2) with
            | none => rw [hv] at h; exact Option.noConfusion h
            | some q =>
              obtain ⟨v, r3⟩ := q
              have h3 := ihv _ _ _ hv
              have hl3 := skipWs_length_le r3
              rw [hv] at h
              simp only at h
              cases hs3 : skipWs r3 with
              | nil => rw [hs3] at h; exact Option.noConfusion h
              | cons e r4 =>
                rw [hs3] at h hl3
                simp only at h
                have hl4 := skipWs_length_le r4
                split_ifs at h
                · simp only [Option.map_eq_some', Prod.mk.injEq] at h
                  obtain ⟨⟨x, r5⟩, h1, _, h2⟩ := h
                  have := ihm _ _ _ h1
                  simp only at h2
                  rw [← h2]
                  simp only [List.length_cons] at hl1 hl3 this ⊢
                  omega
                · simp only [Option.some.injEq, Prod.mk.injEq] at h
                  rw [← h.2]
                  simp only [List.length_cons] at hl1 hl3 ⊢
                  omega

/-- More fuel than twice the length of the input never changes what is read. -/
theorem parse_fuel_stable (fuel : Nat) :
    (∀ s, 2 * s.length + 1 ≤ fuel → parseValue (fuel + 1) s = parseValue fuel s) ∧
    (∀ s, 2 * s.length + 2 ≤ fuel → parseElements (fuel + 1) s = parseElements fuel s) ∧
    (∀ s, 2 * s.length + 2 ≤ fuel → parseMembers (fuel + 1) s = parseMembers fuel s) := by
  induction fuel with
  | zero =>
    refine ⟨?_, ?_, ?_⟩ <;> intro s hf <;> omega
  | succ f ih =>
    obtain ⟨ihv, ihe, ihm⟩ := ih
    refine ⟨?_, ?_, ?_⟩
    · intro s hf
      cases s with
      | nil => simp [parseValue]
      | cons c r0 =>
        have hl := skipWs_length_le r0
        simp only [parseValue]
        cases hs : skipWs r0 with
        | nil => rfl
        | cons d r1 =>
          rw [hs] at hl
          simp only [List.length_cons] at hl hf
          simp only
          rw [ihe (d :: r1) (by simp only [List.length_cons]; omega),
            ihm (d :: r1) (by simp only [List.length_cons]; omega)]
    · intro s hf
      unfold parseElements
      rw [ihv s (by omega)]
      cases hv : parseValue f s with
      | none => rfl
      | some p =>
        obtain ⟨v, r0⟩ := p
        have h0 := (parse_consumes f).1 _ _ _ hv
        have hl := skipWs_length_le r0
        simp only
        cases hs : skipWs r0 with
        | nil => rfl
        | cons d r1 =>
          rw [hs] at hl
          have hl2 := skipWs_length_le r1
          simp only [List.length_cons] at hl
          simp only
          rw [ihe (skipWs r1) (by omega)]
    · intro s hf
      cases s with
      | nil => simp [parseMembers]
      | cons c r0 =>
        unfold parseMembers
        cases hk : parseString r0 with
        | none => rfl
        | some p =>
          obtain ⟨k, r1⟩ := p
          have h0 := parseString_length _ _ _ hk
          have hl1 := skipWs_length_le r1
          simp only
          cases hs : skipWs r1 with
          | nil => rfl
          | cons d r2 =>
            rw [hs] at hl1
            have hl2 := skipWs_length_le r2
            simp only [List.length_cons] at hl1 hf
            simp only
            rw [ihv (skipWs r2) (by omega)]
            cases hv : parseValue f (skipWs r2) with
            | none => rfl
            | some q =>
              obtain ⟨v, r3⟩ := q
              have h3 := (parse_consumes f).1 _ _ _ hv
              have hl3 := skipWs_length_le r3
              simp only
              cases hs3 : skipWs r3 with
              | nil => rfl
              | cons e r4 =>
                rw [hs3] at hl3
                have hl4 := skipWs_length_le r4
                simp only [List.length_cons] at hl3
                simp only
                rw [ihm (skipWs r4) (by omega)]

/-- The fuel of `parseText` is never the reason for a rejection: any larger fuel
reads the same value. -/
theorem parseValue_fuel_enough (s : List Nat) (extra : Nat) :
    parseValue (2 * s.length + 2 + extra) (skipWs s) =
      parseValue (2 * s.length + 2) (skipWs s) := by
  induction extra with
  | zero => rfl
  | succ n ih =>
    have hl := skipWs_length_le s
    rw [← ih]
    exact (parse_fuel_stable (2 * s.length + 2 + n)).1 (skipWs s) (by omega)

/-- Likewise for the fuel of `parseString`. -/
theorem parseStringChars_fuel_stable (fuel : Nat) :
    ∀ s : List Nat, s.length + 1 ≤ fuel →
      parseStringChars (fuel + 1) s = parseStringChars fuel s := by
  induction fuel with
  | zero => intro s hf; omega
  | succ f ih =>
    intro s hf
    cases s with
    | nil => simp [parseStringChars]
    | cons c rest =>
      simp only [List.length_cons] at hf
      unfold parseStringChars
      split_ifs
      · rfl
      · cases rest with
        | nil => rfl
        | cons e rest1 =>
          simp only [List.length_cons] at hf
          simp only
          split_ifs
          · match rest1 with
            | a :: b :: c1 :: d :: rest2 =>
              simp only [List.length_cons] at hf
              simp only
              rw [ih rest2 (by omega)]
            | [] => rfl
            | [_] => rfl
            | [_, _] => rfl
            | [_, _, _] => rfl
          · rw [ih rest1 (by omega)]
      · rfl
      · rw [ih rest (by omega)]

/-! ## All runs of the handler -/

/-- Every run of the handler is one of twelve: the response, the effects, and
the checks that led there. -/
theorem handler_outcomes (t : Transport) (env : Env) (event : Event) :
    (event.httpMethod = some (js "OPTIONS") ∧
      handler t env event =
        ({ statusCode := 200, headers := corsHeaders, body := js "" }, [])) ∨
    (event.httpMethod ≠ some (js "OPTIONS") ∧ event.httpMethod ≠ some (js "POST") ∧
      handler t env event =
        ({ statusCode := 405, headers := jsonHeaders,
           body := JSON.stringify [(js "error", .str (js "Method Not Allowed"))] }, [])) ∨
    (event.httpMethod = some (js "POST") ∧
      (truthyStr env.API_KEY = false ∨
        event.headers.lookup (js "x-api-key") ≠ env.API_KEY) ∧
      handler t env event = (unauthorizedResponse, [])) ∨
    (Authenticated env event ∧ JSON.parse event.body = none ∧
      handler t env event = (badRequest "Invalid JSON in request body", [])) ∨
    (Authenticated env event ∧ ∃ v e, JSON.parse event.body = some v ∧
      destructure v = .error e ∧
      handler t env event = (failureResponse e.message, [.logError e])) ∨
    (Authenticated env event ∧ ∃ v f, JSON.parse event.body = some v ∧
      destructure v = .ok f ∧ truthy f.to_ = false ∧
      handler t env event = (badRequest "Missing required field: to", [])) ∨
    (Authenticated env event ∧ ∃ v f, JSON.parse event.body = some v ∧
      destructure v = .ok f ∧ truthy f.to_ = true ∧ truthy f.subject = false ∧
      handler t env event = (badRequest "Missing required field: subject", [])) ∨
    (Authenticated env event ∧ ∃ v f, JSON.parse event.body = some v ∧
      destructure v = .ok f ∧ truthy f.to_ = true ∧ truthy f.subject = true ∧
      truthy f.text = false ∧ truthy f.html = false ∧
      handler t env event =
        (badRequest "Missing email content: either text or html is required", [])) ∨
    (Authenticated env event ∧ ∃ f to_ subject, PassesValidation event.body f to_ subject ∧
      (truthyStr env.GMAIL_USER = false ∨ truthyStr env.GMAIL_APP_PASSWORD = false) ∧
      handler t env event = (notConfiguredResponse, [])) ∨
    (Authenticated env event ∧ ∃ f to_ subject, PassesValidation event.body f to_ subject ∧
      Configured env ∧ ∃ e, t.verify env.GMAIL_USER env.GMAIL_APP_PASSWORD = .error e ∧
      handler t env event =
        (failureResponse e.message,
          [.createTransport env.GMAIL_USER env.GMAIL_APP_PASSWORD, .verify, .logError e])) ∨
    (Authenticated env event ∧ ∃ f to_ subject, PassesValidation event.body f to_ subject ∧
      Configured env ∧ t.verify env.GMAIL_USER env.GMAIL_APP_PASSWORD = .ok () ∧
      ∃ e, t.sendMail env.GMAIL_USER env.GMAIL_APP_PASSWORD (mailOptions env to_ subject f) =
          .error e ∧
        handler t env event =
          (failureResponse e.message,
            [.createTransport env.GMAIL_USER env.GMAIL_APP_PASSWORD, .verify,
             .sendMail (mailOptions env to_ subject f), .logError e])) ∨
    (Authenticated env event ∧ ∃ f to_ subject, PassesValidation event.body f to_ subject ∧
      Configured env ∧ t.verify env.GMAIL_USER env.GMAIL_APP_PASSWORD = .ok () ∧
      ∃ result, t.sendMail env.GMAIL_USER env.GMAIL_APP_PASSWORD
          (mailOptions env to_ subject f) = .ok result ∧
        handler t env event =
          (successResponse result,
            [.createTransport env.GMAIL_USER env.GMAIL_APP_PASSWORD, .verify,
             .sendMail (mailOptions env to_ subject f), .logSent result.messageId])) := by
  rcases handler_cases t env event with ⟨h0, h1⟩ | ⟨h0, h0', h1⟩ | ⟨h0, h0', h1⟩ | ⟨ha, h1⟩
  · exact Or.inl ⟨h0, h1⟩
  · exact Or.inr (Or.inl ⟨h0, h0', h1⟩)
  · exact Or.inr (Or.inr (Or.inl ⟨h0, h0', h1⟩))
  · right; right; right
    rcases tryBlock_cases t env event with
      ⟨hp, h2⟩ | ⟨v, e, hp, hd, h2⟩ | ⟨v, f, hp, hd, c1, h2⟩ | ⟨v, f, hp, hd, c1, c2, h2⟩ |
      ⟨v, f, hp, hd, c1, c2, c3, c4, h2⟩ | ⟨f, to_, subject, hv, h2⟩
    · rw [h2] at h1
      exact Or.inl ⟨ha, hp, h1⟩
    · rw [h2] at h1
      exact Or.inr (Or.inl ⟨ha, v, e, hp, hd, h1⟩)
    · rw [h2] at h1
      exact Or.inr (Or.inr (Or.inl ⟨ha, v, f, hp, hd, c1, h1⟩))
    · rw [h2] at h1
      exact Or.inr (Or.inr (Or.inr (Or.inl ⟨ha, v, f, hp, hd, c1, c2, h1⟩)))
    · rw [h2] at h1
      exact Or.inr (Or.inr (Or.inr (Or.inr (Or.inl ⟨ha, v, f, hp, hd, c1, c2, c3, c4, h1⟩))))
    · right; right; right; right; right
      rw [h2] at h1
      rcases sendPhase_cases t env to_ subject f with
        ⟨hc, h3⟩ | ⟨hc, e, hver, h3⟩ | ⟨hc, hver, e, hs, h3⟩ | ⟨hc, hver, result, hs, h3⟩
      · rw [h3] at h1
        exact Or.inl ⟨ha, f, to_, subject, hv, hc, h1⟩
      · rw [h3] at h1
        exact Or.inr (Or.inl ⟨ha, f, to_, subject, hv, hc, e, hver, h1⟩)
      · rw [h3] at h1
        exact Or.inr (Or.inr (Or.inl ⟨ha, f, to_, subject, hv, hc, hver, e, hs, h1⟩))
      · rw [h3] at h1
        exact Or.inr (Or.inr (Or.inr ⟨ha, f, to_, subject, hv, hc, hver, result, hs, h1⟩))

theorem truthyVal_of_truthy (v : Option Json) (h : truthy v = true) : truthyVal v = v := by
  obtain ⟨w, rfl, hw⟩ := (truthy_eq_true v).1 h
  simp [truthyVal, hw]

/-- A response with the JSON headers whose body was written by `JSON.stringify`
carries both headers and its body reads back as an object. -/
theorem json_response_parses (r : Response) (hh : r.headers = jsonHeaders)
    (hb : ∃ fields, r.body = JSON.stringify fields) :
    r.headers.lookup (js "Content-Type") = some (js "application/json") ∧
    r.headers.lookup (js "Access-Control-Allow-Origin") = some (js "*") ∧
    ∃ kvs, JSON.parse (.str r.body) = some (.obj kvs) := by
  obtain ⟨fields, hb⟩ := hb
  rw [hh, hb]
  exact ⟨by decide, by decide, _, parseText_stringify fields⟩

theorem emptyRecipients_passes :
    PassesValidation (.str emptyRecipientsBody) emptyRecipientsFields (.arr [])
      (.str (js "Hi")) :=
  ⟨_, rfl, rfl, rfl, rfl, rfl, rfl, Or.inl rfl⟩

/-- The effects of the example request on a transport that succeeds. -/
theorem sample_run :
    handler okTransport sampleEnv (samplePost (.str sampleBody)) =
      (successResponse { messageId := js "m1", accepted := [js "x@y.com"], rejected := [] },
        [.createTransport (some (js "u@gmail.com")) (some (js "pw")), .verify,
         .sendMail (mailOptions sampleEnv (.str (js "x@y.com")) (.str (js "Hi")) sampleFields),
         .logSent (js "m1")]) := by
  rw [handler_authenticated _ _ _ (samplePost_authenticated _),
    tryBlock_valid _ _ _ _ _ _ sampleBody_passes,
    sendPhase_success okTransport sampleEnv _ _ sampleFields
      { messageId := js "m1", accepted := [js "x@y.com"], rejected := [] } ⟨rfl, rfl⟩ rfl rfl]
  rfl

/-- The effects of the example request on a transport whose `verify` fails. -/
theorem sample_run_failing (m : JsString) :
    handler (failingTransport m) sampleEnv (samplePost (.str sampleBody)) =
      (failureResponse m,
        [.createTransport (some (js "u@gmail.com")) (some (js "pw")), .verify,
         .logError { message := m }]) := by
  rw [handler_authenticated _ _ _ (samplePost_authenticated _),
    tryBlock_valid _ _ _ _ _ _ sampleBody_passes,
    sendPhase_verify_fails (failingTransport m) sampleEnv _ _ sampleFields { message := m }
      ⟨rfl, rfl⟩ rfl]
  rfl

/-! ## The handler with its throw sites: the branches -/

theorem sendPhaseRaw_error (t : RawTransport) (env : Env) (to_ subject : Json) (f : Fields)
    (e : Thrown) (steps : List Step)
    (h : sendPhaseRaw t env to_ subject f = (.error e, steps)) :
    t.verify env.GMAIL_USER env.GMAIL_APP_PASSWORD = .error e ∨
      ∃ opts, t.sendMail env.GMAIL_USER env.GMAIL_APP_PASSWORD opts = .error e := by
  unfold sendPhaseRaw at h
  split_ifs at h
  · exact absurd (Prod.mk.inj h).1 (by simp)
  · cases hver : t.verify env.GMAIL_USER env.GMAIL_APP_PASSWORD with
    | error e1 =>
      rw [hver] at h
      simp only [Prod.mk.injEq, Except.error.injEq] at h
      rw [h.1]
      exact Or.inl rfl
    | ok u =>
      rw [hver] at h
      cases hs : t.sendMail env.GMAIL_USER env.GMAIL_APP_PASSWORD
          (mailOptions env to_ subject f) with
      | error e1 =>
        rw [hs] at h
        simp only [Prod.mk.injEq, Except.error.injEq] at h
        rw [← h.1]
        exact Or.inr ⟨_, hs⟩
      | ok result =>
        rw [hs] at h
        exact absurd (Prod.mk.inj h).1 (by simp)

theorem sendPhaseRaw_ok_status (t : RawTransport) (env : Env) (to_ subject : Json) (f : Fields)
    (r : Response) (steps : List Step)
    (h : sendPhaseRaw t env to_ subject f = (.ok r, steps)) :
    r.statusCode = 500 ∨ r.statusCode = 200 := by
  unfold sendPhaseRaw at h
  split_ifs at h
  · simp only [Prod.mk.injEq, Except.ok.injEq] at h
    rw [← h.1]
    exact Or.inl rfl
  · cases hver : t.verify env.GMAIL_USER env.GMAIL_APP_PASSWORD with
    | error e1 =>
      rw [hver] at h
      exact absurd (Prod.mk.inj h).1 (by simp)
    | ok u =>
      rw [hver] at h
      cases hs : t.sendMail env.GMAIL_USER env.GMAIL_APP_PASSWORD
          (mailOptions env to_ subject f) with
      | error e1 =>
        rw [hs] at h
        exact absurd (Prod.mk.inj h).1 (by simp)
      | ok result =>
        rw [hs] at h
        simp only [Prod.mk.injEq, Except.ok.injEq] at h
        rw [← h.1]
        exact Or.inr rfl

/-- The outcomes of `tryBlockRaw`: a `400` response, the `TypeError` of the
destructuring, or the outcome of `sendPhaseRaw`; the first step is always the
call of `JSON.parse`. -/
theorem tryBlockRaw_cases (t : RawTransport) (env : Env) (body : BodyVal) :
    (∃ msg, tryBlockRaw t env body = (.ok (badRequest msg), [.parse body])) ∨
    (∃ v err, JSON.parse body = some v ∧ destructure v = .error err ∧
      tryBlockRaw t env body = (.error (.obj (some err.message)), [.parse body])) ∨
    (∃ f to_ subject, PassesValidation body f to_ subject ∧
      tryBlockRaw t env body =
        ((sendPhaseRaw t env to_ subject f).1,
          .parse body :: (sendPhaseRaw t env to_ subject f).2)) := by
  unfold tryBlockRaw
  cases hp : JSON.parse body with
  | none => exact Or.inl ⟨_, rfl⟩
  | some v =>
    dsimp only
    cases hd : destructure v with
    | error err => exact Or.inr (Or.inl ⟨v, err, rfl, hd, rfl⟩)
    | ok f =>
      dsimp only
      cases hto : truthyVal f.to_ with
      | none => exact Or.inl ⟨_, rfl⟩
      | some to_ =>
        dsimp only
        cases hsub : truthyVal f.subject with
        | none => exact Or.inl ⟨_, rfl⟩
        | some subject =>
          dsimp only
          by_cases hc : (!truthy f.text && !truthy f.html) = true
          · rw [if_pos hc]
            exact Or.inl ⟨_, rfl⟩
          · rw [if_neg hc]
            refine Or.inr (Or.inr ⟨f, to_, subject, ⟨v, hp, hd, ?_, ?_, ?_, ?_, ?_⟩, rfl⟩)
            · exact ((truthyVal_eq_some _ _).1 hto).1
            · exact ((truthyVal_eq_some _ _).1 hto).2
            · exact ((truthyVal_eq_some _ _).1 hsub).1
            · exact ((truthyVal_eq_some _ _).1 hsub).2
            · cases h1 : truthy f.text with
              | true => exact Or.inl rfl
              | false =>
                cases h2 : truthy f.html with
                | true => exact Or.inr rfl
                | false => rw [h1, h2] at hc; exact absurd rfl hc

/-- An exception leaving `tryBlockRaw` is the `TypeError` of the destructuring or
the value `verify` or `sendMail` rejected with. -/
theorem tryBlockRaw_error (t : RawTransport) (env : Env) (body : BodyVal) (e : Thrown)
    (steps : List Step) (h : tryBlockRaw t env body = (.error e, steps)) :
    (∃ v err, JSON.parse body = some v ∧ destructure v = .error err ∧
      e = .obj (some err.message)) ∨
    t.verify env.GMAIL_USER env.GMAIL_APP_PASSWORD = .error e ∨
    ∃ opts, t.sendMail env.GMAIL_USER env.GMAIL_APP_PASSWORD opts = .error e := by
  rcases tryBlockRaw_cases t env body with ⟨msg, h1⟩ | ⟨v, err, hp, hd, h1⟩ |
    ⟨f, to_, subject, _, h1⟩
  · rw [h1] at h
    exact absurd (Prod.mk.inj h).1 (by simp)
  · rw [h1] at h
    simp only [Prod.mk.injEq, Except.error.injEq] at h
    exact Or.inl ⟨v, err, hp, hd, h.1.symm⟩
  · rw [h1] at h
    simp only [Prod.mk.injEq] at h
    exact Or.inr (sendPhaseRaw_error t env to_ subject f e _ (Prod.ext h.1 rfl))

theorem tryBlockRaw_ok_status (t : RawTransport) (env : Env) (body : BodyVal) (r : Response)
    (steps : List Step) (h : tryBlockRaw t env body = (.ok r, steps)) :
    r.statusCode = 400 ∨ r.statusCode = 500 ∨ r.statusCode = 200 := by
  rcases tryBlockRaw_cases t env body with ⟨msg, h1⟩ | ⟨v, err, hp, hd, h1⟩ |
    ⟨f, to_, subject, _, h1⟩
  · rw [h1] at h
    simp only [Prod.mk.injEq, Except.ok.injEq] at h
    rw [← h.1]
    exact Or.inl rfl
  · rw [h1] at h
    exact absurd (Prod.mk.inj h).1 (by simp)
  · rw [h1] at h
    simp only [Prod.mk.injEq] at h
    exact Or.inr (sendPhaseRaw_ok_status t env to_ subject f r _ (Prod.ext h.1 rfl))

/-- The `try` block starts by calling `JSON.parse` on the body. -/
theorem tryBlockRaw_parses (t : RawTransport) (env : Env) (body : BodyVal) :
    ∃ rest, (tryBlockRaw t env body).2 = .parse body :: rest := by
  rcases tryBlockRaw_cases t env body with ⟨msg, h1⟩ | ⟨v, err, hp, hd, h1⟩ |
    ⟨f, to_, subject, _, h1⟩
  · rw [h1]; exact ⟨_, rfl⟩
  · rw [h1]; exact ⟨_, rfl⟩
  · rw [h1]; exact ⟨_, rfl⟩

/-- A POST request that fails the key check gets the `401` response and no step
is performed. -/
theorem handlerRaw_key_rejected (t : RawTransport) (env : Env) (event : RawEvent)
    (h : FailsKeyCheck env event) :
    handlerRaw t env event = (.returned unauthorizedResponse, []) := by
  obtain ⟨hm, headers, hh, hk⟩ := h
  have h1 : ¬ (some (js "POST") = some (js "OPTIONS")) := by
    intro h
    exact post_ne_options (Option.some.inj h)
  unfold handlerRaw
  rw [hm, if_neg h1, if_neg (by simp), hh]
  rcases hk with hk | hk
  · simp [hk]
  · simp [hk]

/-- On a POST request whose key is accepted the handler runs the `try` block and
then the `catch` block on what it threw. -/
theorem handlerRaw_authenticated (t : RawTransport) (env : Env) (event : RawEvent)
    (headers : List (JsString × JsString))
    (hm : event.httpMethod = some (js "POST")) (hh : event.headers = some headers)
    (hk : truthyStr env.API_KEY = true)
    (hl : headers.lookup (js "x-api-key") = env.API_KEY) :
    handlerRaw t env event =
      match tryBlockRaw t env event.body with
      | (.ok response, steps) => (.returned response, steps)
      | (.error .null, steps) =>
        (.threw (cannotRead "null" "message"), steps ++ [.logError .null])
      | (.error .undefined, steps) =>
        (.threw (cannotRead "undefined" "message"), steps ++ [.logError .undefined])
      | (.error (.obj message), steps) =>
        (.returned (catchResponse message), steps ++ [.logError (.obj message)]) := by
  have h1 : ¬ (some (js "POST") = some (js "OPTIONS")) := by
    intro h
    exact post_ne_options (Option.some.inj h)
  unfold handlerRaw
  rw [hm, if_neg h1, if_neg (by simp), hh]
  simp only [hk, hl]
  simp

/-- When the key is accepted, the first step of the handler is the call of
`JSON.parse` on the body. -/
theorem handlerRaw_authenticated_parses (t : RawTransport) (env : Env) (event : RawEvent)
    (headers : List (JsString × JsString))
    (hm : event.httpMethod = some (js "POST")) (hh : event.headers = some headers)
    (hk : truthyStr env.API_KEY = true)
    (hl : headers.lookup (js "x-api-key") = env.API_KEY) :
    ∃ rest, (handlerRaw t env event).2 = .parse event.body :: rest := by
  rw [handlerRaw_authenticated t env event headers hm hh hk hl]
  obtain ⟨rest, hr⟩ := tryBlockRaw_parses t env event.body
  rcases hb : tryBlockRaw t env event.body with ⟨r | r, steps⟩
  · rw [hb] at hr
    simp only at hr
    cases r with
    | null => exact ⟨rest ++ [.logError .null], by simp [hr]⟩
    | undefined => exact ⟨rest ++ [.logError .undefined], by simp [hr]⟩
    | obj message => exact ⟨rest ++ [.logError (.obj message)], by simp [hr]⟩
  · rw [hb] at hr
    exact ⟨rest, hr⟩

theorem toRaw_rejectsWithObjects (t : Transport) : RejectsWithObjects t.toRaw := by
  constructor
  · intro u p e h
    simp only [Transport.toRaw] at h
    cases hv : t.verify u p with
    | error e1 =>
      rw [hv] at h
      exact ⟨_, (Except.error.inj h).symm⟩
    | ok x =>
      rw [hv] at h
      exact Except.noConfusion h
  · intro u p o e h
    simp only [Transport.toRaw] at h
    cases hv : t.sendMail u p o with
    | error e1 =>
      rw [hv] at h
      exact ⟨_, (Except.error.inj h).symm⟩
    | ok x =>
      rw [hv] at h
      exact Except.noConfusion h

/-! ## Agreement of the two embeddings of the handler -/

theorem sendPhaseRaw_toRaw (t : Transport) (env : Env) (to_ subject : Json) (f : Fields) :
    (sendPhaseRaw t.toRaw env to_ subject f).1 =
      (match (sendPhase t env to_ subject f).1 with
        | .ok r => .ok r
        | .error e => .error (.obj (some e.message))) ∧
    (sendPhaseRaw t.toRaw env to_ subject f).2.filterMap Step.toEffect =
      (sendPhase t env to_ subject f).2 := by
  unfold sendPhaseRaw sendPhase
  split_ifs
  · exact ⟨rfl, rfl⟩
  · simp only [Transport.toRaw]
    cases hver : t.verify env.GMAIL_USER env.GMAIL_APP_PASSWORD with
    | error e => exact ⟨rfl, rfl⟩
    | ok u =>
      dsimp only
      cases hs : t.sendMail env.GMAIL_USER env.GMAIL_APP_PASSWORD
          (mailOptions env to_ subject f) with
      | error e => exact ⟨rfl, rfl⟩
      | ok result => exact ⟨rfl, rfl⟩

theorem tryBlockRaw_toRaw (t : Transport) (env : Env) (event : Event) :
    (tryBlockRaw t.toRaw env event.body).1 =
      (match (tryBlock t env event).1 with
        | .ok r => .ok r
        | .error e => .error (.obj (some e.message))) ∧
    (tryBlockRaw t.toRaw env event.body).2.filterMap Step.toEffect =
      (tryBlock t env event).2 := by
  rcases tryBlock_cases t env event with
    ⟨hp, h2⟩ | ⟨v, e, hp, hd, h2⟩ | ⟨v, f, hp, hd, c1, h2⟩ | ⟨v, f, hp, hd, c1, c2, h2⟩ |
    ⟨v, f, hp, hd, c1, c2, c3, c4, h2⟩ | ⟨f, to_, subject, hv, h2⟩
  · rw [h2]
    unfold tryBlockRaw
    rw [hp]
    exact ⟨rfl, rfl⟩
  · rw [h2]
    unfold tryBlockRaw
    rw [hp]
    simp only [hd]
    exact ⟨trivial, rfl⟩
  · rw [h2]
    unfold tryBlockRaw
    rw [hp]
    simp only [hd, (truthyVal_eq_none _).2 c1]
    exact ⟨trivial, rfl⟩
  · rw [h2]
    obtain ⟨w, hw, hwt⟩ := (truthy_eq_true _).1 c1
    unfold tryBlockRaw
    rw [hp]
    simp only [hd, (truthyVal_eq_some _ _).2 ⟨hw, hwt⟩, (truthyVal_eq_none _).2 c2]
    exact ⟨trivial, rfl⟩
  · rw [h2]
    obtain ⟨w, hw, hwt⟩ := (truthy_eq_true _).1 c1
    obtain ⟨w2, hw2, hwt2⟩ := (truthy_eq_true _).1 c2
    unfold tryBlockRaw
    rw [hp]
    simp only [hd, (truthyVal_eq_some _ _).2 ⟨hw, hwt⟩, (truthyVal_eq_some _ _).2 ⟨hw2, hwt2⟩,
      c3, c4]
    exact ⟨rfl, rfl⟩
  · rw [h2]
    have hr := sendPhaseRaw_toRaw t env to_ subject f
    obtain ⟨v, hp, hd, hto, htt, hsub, hst, hc⟩ := hv
    have h3 : (!truthy f.text && !truthy f.html) = false := by
      rcases hc with hc | hc <;> simp [hc]
    unfold tryBlockRaw
    rw [hp]
    simp only [hd, (truthyVal_eq_some _ _).2 ⟨hto, htt⟩, (truthyVal_eq_some _ _).2 ⟨hsub, hst⟩,
      h3]
    refine ⟨hr.1, ?_⟩
    simp only [Bool.false_eq_true, if_false, List.filterMap_cons, Step.toEffect]
    exact hr.2

/-- On an event that carries headers and a transport whose failures are errors
with a message, the handler with its throw sites returns the response of
`handler`, and its steps other than the calls of `JSON.parse` are the effects of
`handler`. -/
theorem handlerRaw_toRaw (t : Transport) (env : Env) (event : Event) :
    (handlerRaw t.toRaw env event.toRaw).1 = .returned (handler t env event).1 ∧
    (handlerRaw t.toRaw env event.toRaw).2.filterMap Step.toEffect =
      (handler t env event).2 := by
  rcases handler_cases t env event with ⟨h0, h1⟩ | ⟨h0, h0', h1⟩ | ⟨h0, hk, h1⟩ | ⟨ha, h1⟩
  · rw [h1]
    unfold handlerRaw
    rw [if_pos (show event.toRaw.httpMethod = some (js "OPTIONS") from h0)]
    exact ⟨rfl, rfl⟩
  · rw [h1]
    unfold handlerRaw
    rw [if_neg (show ¬ event.toRaw.httpMethod = some (js "OPTIONS") from h0),
      if_pos (show event.toRaw.httpMethod ≠ some (js "POST") from h0')]
    exact ⟨rfl, rfl⟩
  · rw [h1, handlerRaw_key_rejected t.toRaw env event.toRaw ⟨h0, event.headers, rfl, hk⟩]
    exact ⟨rfl, rfl⟩
  · obtain ⟨hm, hk, hl⟩ := ha
    rw [h1, handlerRaw_authenticated t.toRaw env event.toRaw event.headers hm rfl hk hl]
    obtain ⟨r1, r2⟩ := tryBlockRaw_toRaw t env event
    have hb : (event.toRaw).body = event.body := rfl
    rw [hb]
    rcases hx : tryBlock t env event with ⟨e | r, effects⟩
    · rw [hx] at r1 r2
      simp only at r1 r2
      rcases hy : tryBlockRaw t.toRaw env event.body with ⟨e2 | r', steps⟩
      · rw [hy] at r1 r2
        simp only at r1 r2
        rw [Except.error.inj r1]
        simp only [catchResponse, List.filterMap_append, r2]
        exact ⟨trivial, rfl⟩
      · rw [hy] at r1
        exact Except.noConfusion r1
    · rw [hx] at r1 r2
      simp only at r1 r2
      rcases hy : tryBlockRaw t.toRaw env event.body with ⟨e2 | r', steps⟩
      · rw [hy] at r1
        exact Except.noConfusion r1
      · rw [hy] at r1 r2
        simp only at r1 r2
        rw [Except.ok.inj r1]
        exact ⟨rfl, r2⟩

/-! ## The claims -/

/-- C1: a POST request gets the `401` response `Unauthorized` / `Invalid or missing
API key`, whatever its body, when `API_KEY` is unset or empty, or the request has
no `x-api-key` header, or the header differs from `API_KEY`; and a POST request
with status 401 is in one of these cases. -/
theorem unauthorized_iff_key_rejected (t : Transport) (env : Env) (event : Event)
    (hm : event.httpMethod = some (js "POST")) :
    ((env.API_KEY = none ∨ env.API_KEY = some (js "") ∨
        event.headers.lookup (js "x-api-key") = none ∨
        event.headers.lookup (js "x-api-key") ≠ env.API_KEY) →
      handler t env event = (unauthorizedResponse, [])) ∧
    ((handler t env event).1.statusCode = 401 →
      (env.API_KEY = none ∨ env.API_KEY = some (js "") ∨
        event.headers.lookup (js "x-api-key") = none ∨
        event.headers.lookup (js "x-api-key") ≠ env.API_KEY)) := by
  have hempty : js "" = [] := rfl
  constructor
  · intro h
    apply handler_unauthorized t env event hm
    rcases h with h | h | h | h
    · exact Or.inl ((truthyStr_eq_false _).2 (Or.inl h))
    · exact Or.inl ((truthyStr_eq_false _).2 (Or.inr (by rw [h, hempty])))
    · by_cases hk : env.API_KEY = none
      · exact Or.inl ((truthyStr_eq_false _).2 (Or.inl hk))
      · right
        rw [h]
        exact fun h2 => hk h2.symm
    · exact Or.inr h
  · intro hs
    by_contra hn
    simp only [not_or, not_not] at hn
    obtain ⟨h1, h2, _, h4⟩ := hn
    have hk : truthyStr env.API_KEY = true := by
      cases hb : truthyStr env.API_KEY with
      | true => rfl
      | false =>
        rcases (truthyStr_eq_false _).1 hb with h | h
        · exact absurd h h1
        · exact absurd (by rw [h, hempty]) h2
    exact handler_authenticated_status t env event ⟨hm, hk, h4⟩ hs

/-- C1 at a request without the header: POST, `API_KEY = "k"`, no headers. -/
theorem unauthorized_iff_key_rejected_witness :
    handler okTransport sampleEnv
        { httpMethod := some (js "POST"), headers := [], body := .str (js "x") } =
      (unauthorizedResponse, []) :=
  (unauthorized_iff_key_rejected okTransport sampleEnv
    { httpMethod := some (js "POST"), headers := [], body := .str (js "x") } rfl).1
    (Or.inr (Or.inr (Or.inl rfl)))

/-- C2 (fails on the code): the body `null` is valid JSON without a `to` field,
yet the authenticated POST request carrying it gets status 500 with the failure
payload, not the `400` response `Missing required field: to`. -/
theorem json_null_body_gives_500 :
    JSON.parse (.str (js "null")) = some .null ∧
    handler okTransport sampleEnv (samplePost (.str (js "null"))) =
      (failureResponse
          (js "Cannot destructure property \x27to\x27 of \x27emailData\x27 as it is null."),
        [.logError
          { message :=
              js "Cannot destructure property \x27to\x27 of \x27emailData\x27 as it is null." }]) ∧
    (handler okTransport sampleEnv (samplePost (.str (js "null")))).1.statusCode = 500 :=
  have h := null_payload_response okTransport sampleEnv (samplePost (.str (js "null")))
    (samplePost_authenticated _) rfl
  ⟨rfl, h, by rw [h]; rfl⟩

/-- C3: on an authenticated POST request whose body parses to an object, the
field checks run in the order `to`, `subject`, content and the first failing one
decides: a falsy `to` gives `Missing required field: to` whatever the other
fields are, a truthy `to` with a falsy `subject` gives `Missing required field:
subject`, truthy `to` and `subject` with `text` and `html` both falsy give
`Missing email content: either text or html is required`. A field is falsy when
it is absent, `null`, `false`, a number that is zero, or the empty string. -/
theorem validation_order (t : Transport) (env : Env) (event : Event)
    (kvs : List (JsString × Json)) (ha : Authenticated env event)
    (hp : JSON.parse event.body = some (.obj kvs)) :
    (truthy (getField (js "to") kvs) = false →
      handler t env event = (badRequest "Missing required field: to", [])) ∧
    (truthy (getField (js "to") kvs) = true → truthy (getField (js "subject") kvs) = false →
      handler t env event = (badRequest "Missing required field: subject", [])) ∧
    (truthy (getField (js "to") kvs) = true → truthy (getField (js "subject") kvs) = true →
      truthy (getField (js "text") kvs) = false → truthy (getField (js "html") kvs) = false →
      handler t env event =
        (badRequest "Missing email content: either text or html is required", [])) ∧
    (∀ v : Option Json, truthy v = false ↔
      (v = none ∨ v = some .null ∨ v = some (.bool false) ∨
        (∃ n m e, v = some (.num n m e) ∧ roundsToZero m e = true) ∨ v = some (.str []))) := by
  have hd := destructure_of_ne_null (.obj kvs) (by simp)
  rw [handler_authenticated t env event ha]
  refine ⟨?_, ?_, ?_, ?_⟩
  · intro h1
    rw [tryBlock_missing_to t env event _ _ hp hd h1]
  · intro h1 h2
    rw [tryBlock_missing_subject t env event _ _ hp hd h1 h2]
  · intro h1 h2 h3 h4
    rw [tryBlock_missing_content t env event _ _ hp hd h1 h2 h3 h4]
  · intro v
    cases v with
    | none => simp [truthy]
    | some w =>
      cases w with
      | null => simp [truthy, Json.truthy]
      | bool b => cases b <;> simp [truthy, Json.truthy]
      | num n m e =>
        have key : truthy (some (.num n m e)) = false ↔ roundsToZero m e = true := by
          simp [truthy, Json.truthy]
        rw [key]
        constructor
        · intro h
          exact Or.inr (Or.inr (Or.inr (Or.inl ⟨n, m, e, rfl, h⟩)))
        · rintro (h | h | h | ⟨n1, m1, e1, h, hr⟩ | h)
          · exact Option.noConfusion h
          · exact Json.noConfusion (Option.some.inj h)
          · exact Json.noConfusion (Option.some.inj h)
          · simp only [Option.some.injEq, Json.num.injEq] at h
            obtain ⟨_, rfl, rfl⟩ := h
            exact hr
          · exact Json.noConfusion (Option.some.inj h)
      | str s => cases s <;> simp [truthy, Json.truthy]
      | arr xs => simp [truthy, Json.truthy]
      | obj kvs => simp [truthy, Json.truthy]

/-- C3 at a body with `to` and an empty `subject`: the subject is reported. -/
theorem validation_order_witness :
    handler okTransport sampleEnv
        (samplePost (.str (js "\x7b\"to\":\"x@y.com\",\"subject\":\"\"\x7d"))) =
      (badRequest "Missing required field: subject", []) :=
  (validation_order okTransport sampleEnv
    (samplePost (.str (js "\x7b\"to\":\"x@y.com\",\"subject\":\"\"\x7d")))
    [(js "to", .str (js "x@y.com")), (js "subject", .str (js ""))]
    (samplePost_authenticated _) rfl).2.1 rfl rfl

/-- C4 (fails on the code): a request without a body, which the platform delivers
with `event.body` equal to `null`, gets status 500 with the failure payload, not
the `400` response `Invalid JSON in request body`: `JSON.parse(null)` reads the
text `null` and succeeds. -/
theorem absent_body_gives_500 :
    JSON.parse .null = some .null ∧
    handler okTransport sampleEnv (samplePost .null) =
      (failureResponse
          (js "Cannot destructure property \x27to\x27 of \x27emailData\x27 as it is null."),
        [.logError
          { message :=
              js "Cannot destructure property \x27to\x27 of \x27emailData\x27 as it is null." }]) ∧
    (handler okTransport sampleEnv (samplePost .null)).1.statusCode = 500 :=
  have h := null_payload_response okTransport sampleEnv (samplePost .null)
    (samplePost_authenticated _) rfl
  ⟨rfl, h, by rw [h]; rfl⟩

/-- C5: on an authenticated POST request whose payload passes the field checks,
when `GMAIL_USER` or `GMAIL_APP_PASSWORD` is unset or empty the handler returns
status 500 with `Email service not configured properly` and performs no effect:
neither `verify` nor `sendMail` is invoked. -/
theorem not_configured_response (t : Transport) (env : Env) (event : Event) (f : Fields)
    (to_ subject : Json) (ha : Authenticated env event)
    (hv : PassesValidation event.body f to_ subject)
    (hc : env.GMAIL_USER = none ∨ env.GMAIL_USER = some (js "") ∨
      env.GMAIL_APP_PASSWORD = none ∨ env.GMAIL_APP_PASSWORD = some (js "")) :
    handler t env event = (notConfiguredResponse, []) ∧
    Effect.verify ∉ (handler t env event).2 ∧
    ∀ opts, Effect.sendMail opts ∉ (handler t env event).2 := by
  have hempty : js "" = [] := rfl
  have hc2 : truthyStr env.GMAIL_USER = false ∨ truthyStr env.GMAIL_APP_PASSWORD = false := by
    rcases hc with h | h | h | h
    · exact Or.inl ((truthyStr_eq_false _).2 (Or.inl h))
    · exact Or.inl ((truthyStr_eq_false _).2 (Or.inr (by rw [h, hempty])))
    · exact Or.inr ((truthyStr_eq_false _).2 (Or.inl h))
    · exact Or.inr ((truthyStr_eq_false _).2 (Or.inr (by rw [h, hempty])))
  have h : handler t env event = (notConfiguredResponse, []) := by
    rw [handler_authenticated t env event ha, tryBlock_valid t env event f to_ subject hv,
      sendPhase_not_configured t env to_ subject f hc2]
  rw [h]
  exact ⟨rfl, by simp, by simp⟩

/-- C5 at the example payload with `GMAIL_APP_PASSWORD` unset. -/
theorem not_configured_response_witness :
    handler okTransport
        { API_KEY := some (js "k"), GMAIL_USER := some (js "u@gmail.com"),
          GMAIL_APP_PASSWORD := none }
        (samplePost (.str sampleBody)) = (notConfiguredResponse, []) :=
  (not_configured_response okTransport
    { API_KEY := some (js "k"), GMAIL_USER := some (js "u@gmail.com"),
      GMAIL_APP_PASSWORD := none }
    (samplePost (.str sampleBody)) sampleFields (.str (js "x@y.com")) (.str (js "Hi"))
    ⟨rfl, rfl, rfl⟩ sampleBody_passes (Or.inr (Or.inr (Or.inl rfl)))).1

/-- C6: on an authenticated POST request with a valid payload and configured
credentials, when `verify` succeeds and `sendMail` returns a result, the handler
returns status 200 with the payload `success: true`, `message: Email sent
successfully` and the `messageId`, `accepted` and `rejected` of that result. -/
theorem success_response (t : Transport) (env : Env) (event : Event) (f : Fields)
    (to_ subject : Json) (result : SendResult) (ha : Authenticated env event)
    (hv : PassesValidation event.body f to_ subject) (hc : Configured env)
    (hver : t.verify env.GMAIL_USER env.GMAIL_APP_PASSWORD = .ok ())
    (hsend : t.sendMail env.GMAIL_USER env.GMAIL_APP_PASSWORD (mailOptions env to_ subject f) =
      .ok result) :
    (handler t env event).1 =
      { statusCode := 200, headers := jsonHeaders,
        body := JSON.stringify
          [(js "success", .bool true),
           (js "message", .str (js "Email sent successfully")),
           (js "messageId", .str result.messageId),
           (js "accepted", .strs result.accepted),
           (js "rejected", .strs result.rejected)] } := by
  rw [handler_authenticated t env event ha, tryBlock_valid t env event f to_ subject hv,
    sendPhase_success t env to_ subject f result hc hver hsend]
  rfl

/-- C6 at the example of the specification: the transport answers with message id
`m1`, accepted `x@y.com`, nothing rejected. -/
theorem success_response_witness :
    (handler okTransport sampleEnv (samplePost (.str sampleBody))).1 =
      { statusCode := 200, headers := jsonHeaders,
        body := JSON.stringify
          [(js "success", .bool true),
           (js "message", .str (js "Email sent successfully")),
           (js "messageId", .str (js "m1")),
           (js "accepted", .strs [js "x@y.com"]),
           (js "rejected", .strs [])] } :=
  success_response okTransport sampleEnv (samplePost (.str sampleBody)) sampleFields
    (.str (js "x@y.com")) (.str (js "Hi"))
    { messageId := js "m1", accepted := [js "x@y.com"], rejected := [] }
    (samplePost_authenticated _) sampleBody_passes ⟨rfl, rfl⟩ rfl rfl

/-- C7: on an authenticated POST request with a valid payload and configured
credentials, when `verify` fails, or `verify` succeeds and `sendMail` fails, with
an error of message `m`, the handler returns status 500 with the payload
`success: false`, `error: Failed to send email`, `details: m`. -/
theorem failure_response (t : Transport) (env : Env) (event : Event) (f : Fields)
    (to_ subject : Json) (e : JsError) (ha : Authenticated env event)
    (hv : PassesValidation event.body f to_ subject) (hc : Configured env)
    (hfail : t.verify env.GMAIL_USER env.GMAIL_APP_PASSWORD = .error e ∨
      (t.verify env.GMAIL_USER env.GMAIL_APP_PASSWORD = .ok () ∧
        t.sendMail env.GMAIL_USER env.GMAIL_APP_PASSWORD (mailOptions env to_ subject f) =
          .error e)) :
    (handler t env event).1 =
      { statusCode := 500, headers := jsonHeaders,
        body := JSON.stringify
          [(js "success", .bool false),
           (js "error", .str (js "Failed to send email")),
           (js "details", .str e.message)] } := by
  rw [handler_authenticated t env event ha, tryBlock_valid t env event f to_ subject hv]
  rcases hfail with hver | ⟨hver, hsend⟩
  · rw [sendPhase_verify_fails t env to_ subject f e hc hver]
    rfl
  · rw [sendPhase_send_fails t env to_ subject f e hc hver hsend]
    rfl

/-- C7 at the example of the specification: `verify` rejects with `boom`. -/
theorem failure_response_witness :
    (handler (failingTransport (js "boom")) sampleEnv (samplePost (.str sampleBody))).1 =
      { statusCode := 500, headers := jsonHeaders,
        body := JSON.stringify
          [(js "success", .bool false),
           (js "error", .str (js "Failed to send email")),
           (js "details", .str (js "boom"))] } :=
  failure_response (failingTransport (js "boom")) sampleEnv (samplePost (.str sampleBody))
    sampleFields (.str (js "x@y.com")) (.str (js "Hi")) { message := js "boom" }
    (samplePost_authenticated _) sampleBody_passes ⟨rfl, rfl⟩ (Or.inl rfl)

/-- C8: whenever `sendMail` is invoked, the body parsed to a payload with a `to`
property, and the `to` of the message handed to the transport is the one-element
list of that value when it is a string, and that list itself when it is a list. -/
theorem recipients_normalized (t : Transport) (env : Env) (event : Event) (opts : MailOptions)
    (h : Effect.sendMail opts ∈ (handler t env event).2) :
    ∃ v to_, JSON.parse event.body = some v ∧ getProp (js "to") v = some to_ ∧
      (∀ s, to_ = .str s → opts.to_ = [.str s]) ∧
      (∀ xs, to_ = .arr xs → opts.to_ = xs) := by
  obtain ⟨_, _, _, f, to_, subject, ⟨v, hp, hd, hto, _⟩, rfl⟩ := sendMail_effect t env event opts h
  refine ⟨v, to_, hp, ?_, ?_, ?_⟩
  · rw [(destructure_ok v f hd).2] at hto
    exact hto
  · rintro s rfl
    rfl
  · rintro xs rfl
    rfl

/-- C8 at the example payload: the single address is wrapped in a list. -/
theorem recipients_normalized_witness :
    ∃ v to_, JSON.parse (samplePost (.str sampleBody)).body = some v ∧
      getProp (js "to") v = some to_ ∧
      (∀ s, to_ = .str s →
        (mailOptions sampleEnv (.str (js "x@y.com")) (.str (js "Hi")) sampleFields).to_ =
          [.str s]) ∧
      (∀ xs, to_ = .arr xs →
        (mailOptions sampleEnv (.str (js "x@y.com")) (.str (js "Hi")) sampleFields).to_ = xs) :=
  recipients_normalized okTransport sampleEnv (samplePost (.str sampleBody))
    (mailOptions sampleEnv (.str (js "x@y.com")) (.str (js "Hi")) sampleFields)
    (by
      rw [handler_authenticated _ _ _ (samplePost_authenticated _),
        tryBlock_valid _ _ _ _ _ _ sampleBody_passes,
        sendPhase_success okTransport sampleEnv _ _ sampleFields
          { messageId := js "m1", accepted := [js "x@y.com"], rejected := [] } ⟨rfl, rfl⟩ rfl rfl]
      simp)

/-- C9: a request whose method is `OPTIONS` gets status 200 with the empty string
as body and the CORS headers (any origin, allowed headers ending in `x-api-key`,
methods `POST, OPTIONS`), whatever its headers, body and the environment, and
the handler performs no effect, so no transport operation. -/
theorem preflight_response (t : Transport) (env : Env) (event : Event)
    (hm : event.httpMethod = some (js "OPTIONS")) :
    handler t env event = ({ statusCode := 200, headers := corsHeaders, body := js "" }, []) ∧
    (handler t env event).1.body = [] ∧
    (handler t env event).1.headers.lookup (js "Access-Control-Allow-Origin") = some (js "*") ∧
    (handler t env event).1.headers.lookup (js "Access-Control-Allow-Headers") =
      some (js "Content-Type, Authorization, " ++ js "x-api-key") ∧
    (handler t env event).1.headers.lookup (js "Access-Control-Allow-Methods") =
      some (js "POST, OPTIONS") ∧
    (handler t env event).2 = [] := by
  have h : handler t env event =
      ({ statusCode := 200, headers := corsHeaders, body := js "" }, []) := by
    unfold handler
    rw [if_pos hm]
  rw [h]
  refine ⟨rfl, rfl, ?_, ?_, ?_, rfl⟩ <;> decide

/-- C9 at a preflight request without key, in an environment with nothing set. -/
theorem preflight_response_witness :
    (handler okTransport { API_KEY := none, GMAIL_USER := none, GMAIL_APP_PASSWORD := none }
        { httpMethod := some (js "OPTIONS"), headers := [], body := .null }).1.statusCode = 200 ∧
    (handler okTransport { API_KEY := none, GMAIL_USER := none, GMAIL_APP_PASSWORD := none }
        { httpMethod := some (js "OPTIONS"), headers := [], body := .null }).2 = [] :=
  have h := preflight_response okTransport
    { API_KEY := none, GMAIL_USER := none, GMAIL_APP_PASSWORD := none }
    { httpMethod := some (js "OPTIONS"), headers := [], body := .null } rfl
  ⟨by rw [h.1], h.2.2.2.2.2⟩

/-- C10: a request whose method is neither `POST` nor `OPTIONS` (compared exactly,
an absent method included) gets status 405 with body `Method Not Allowed`,
whatever the key, the body and the environment; no effect is performed. -/
theorem method_not_allowed (t : Transport) (env : Env) (event : Event)
    (h1 : event.httpMethod ≠ some (js "OPTIONS")) (h2 : event.httpMethod ≠ some (js "POST")) :
    handler t env event =
      ({ statusCode := 405, headers := jsonHeaders,
         body := JSON.stringify [(js "error", .str (js "Method Not Allowed"))] }, []) := by
  unfold handler
  rw [if_neg h1, if_pos h2]

/-- C10 at the lower-case method `post` and at an absent method. -/
theorem method_not_allowed_witness :
    (handler okTransport sampleEnv
        { httpMethod := some (js "post"), headers := [(js "x-api-key", js "k")],
          body := .null }).1.statusCode = 405 ∧
    (handler okTransport sampleEnv
        { httpMethod := none, headers := [], body := .undefined }).1.statusCode = 405 :=
  ⟨by rw [method_not_allowed okTransport sampleEnv
      { httpMethod := some (js "post"), headers := [(js "x-api-key", js "k")], body := .null }
      (by decide) (by decide)],
   by rw [method_not_allowed okTransport sampleEnv
      { httpMethod := none, headers := [], body := .undefined } (by decide) (by decide)]⟩

/-- C11 as stated fails: a POST event without a headers object makes the handler
throw when it reads `x-api-key`, before the `try` block; and when `verify`
rejects with `null`, the `catch` block throws when it reads `message`. -/
theorem handlerRaw_can_throw :
    handlerRaw okTransport.toRaw sampleEnv
        { httpMethod := some (js "POST"), headers := none, body := .str sampleBody } =
      (.threw (cannotRead "undefined" "x-api-key"), []) ∧
    handlerRaw nullRejectingTransport sampleEnv (samplePost (.str sampleBody)).toRaw =
      (.threw (cannotRead "null" "message"),
        [.parse (.str sampleBody),
         .createTransport (some (js "u@gmail.com")) (some (js "pw")), .verify,
         .logError .null]) ∧
    ¬ ∃ r, (handlerRaw nullRejectingTransport sampleEnv
        (samplePost (.str sampleBody)).toRaw).1 = .returned r := by
  have h2 : handlerRaw nullRejectingTransport sampleEnv (samplePost (.str sampleBody)).toRaw =
      (.threw (cannotRead "null" "message"),
        [.parse (.str sampleBody),
         .createTransport (some (js "u@gmail.com")) (some (js "pw")), .verify,
         .logError .null]) := by
    rw [handlerRaw_authenticated nullRejectingTransport sampleEnv _ [(js "x-api-key", js "k")]
      rfl rfl rfl rfl]
    rfl
  refine ⟨rfl, h2, ?_⟩
  rintro ⟨r, hr⟩
  rw [h2] at hr
  exact Outcome.noConfusion hr

/-- C11, amended: for every request that carries a headers object, every
environment and every transport that rejects only with values other than `null`
and `undefined`, the handler returns a response, with status 200, 400, 401, 405
or 500, and does not throw. A value thrown inside the `try` block is caught and
mapped to status 500 with `success: false`, `error: Failed to send email` and
its message as `details` (no `details` when it has no message); the values
thrown there are the `TypeError` of the destructuring and what `verify` or
`sendMail` rejected with. -/
theorem handlerRaw_returns (t : RawTransport) (env : Env) (event : RawEvent)
    (hh : event.headers ≠ none) (ht : RejectsWithObjects t) :
    (∃ r, (handlerRaw t env event).1 = .returned r ∧
      (r.statusCode = 200 ∨ r.statusCode = 400 ∨ r.statusCode = 401 ∨ r.statusCode = 405 ∨
        r.statusCode = 500)) ∧
    (∀ headers m steps, event.httpMethod = some (js "POST") → event.headers = some headers →
      truthyStr env.API_KEY = true → headers.lookup (js "x-api-key") = env.API_KEY →
      tryBlockRaw t env event.body = (.error (.obj (some m)), steps) →
      handlerRaw t env event =
        (.returned { statusCode := 500, headers := jsonHeaders,
                     body := JSON.stringify
                       [(js "success", .bool false),
                        (js "error", .str (js "Failed to send email")),
                        (js "details", .str m)] },
         steps ++ [.logError (.obj (some m))])) ∧
    (∀ headers steps, event.httpMethod = some (js "POST") → event.headers = some headers →
      truthyStr env.API_KEY = true → headers.lookup (js "x-api-key") = env.API_KEY →
      tryBlockRaw t env event.body = (.error (.obj none), steps) →
      handlerRaw t env event =
        (.returned { statusCode := 500, headers := jsonHeaders,
                     body := JSON.stringify
                       [(js "success", .bool false),
                        (js "error", .str (js "Failed to send email"))] },
         steps ++ [.logError (.obj none)])) ∧
    (∀ e steps, tryBlockRaw t env event.body = (.error e, steps) →
      (∃ v err, JSON.parse event.body = some v ∧ destructure v = .error err ∧
        e = .obj (some err.message)) ∨
      t.verify env.GMAIL_USER env.GMAIL_APP_PASSWORD = .error e ∨
      ∃ opts, t.sendMail env.GMAIL_USER env.GMAIL_APP_PASSWORD opts = .error e) := by
  refine ⟨?_, ?_, ?_, ?_⟩
  · by_cases h1 : event.httpMethod = some (js "OPTIONS")
    · refine ⟨{ statusCode := 200, headers := corsHeaders, body := js "" }, ?_, Or.inl rfl⟩
      unfold handlerRaw
      rw [if_pos h1]
    · by_cases h2 : event.httpMethod = some (js "POST")
      · cases hd : event.headers with
        | none => exact absurd hd hh
        | some headers =>
          by_cases hk : truthyStr env.API_KEY = false ∨
              headers.lookup (js "x-api-key") ≠ env.API_KEY
          · rw [handlerRaw_key_rejected t env event ⟨h2, headers, hd, hk⟩]
            exact ⟨_, rfl, Or.inr (Or.inr (Or.inl rfl))⟩
          · simp only [not_or, Bool.not_eq_false, not_not] at hk
            rw [handlerRaw_authenticated t env event headers h2 hd hk.1 hk.2]
            rcases hb : tryBlockRaw t env event.body with ⟨e | r, steps⟩
            · have hobj : ∃ message, e = .obj message := by
                rcases tryBlockRaw_error t env event.body e steps hb with
                  ⟨_, err, _, _, he⟩ | hv | ⟨opts, hs⟩
                · exact ⟨_, he⟩
                · exact ht.1 _ _ _ hv
                · exact ht.2 _ _ _ _ hs
              obtain ⟨message, rfl⟩ := hobj
              refine ⟨catchResponse message, rfl, ?_⟩
              cases message <;> simp [catchResponse, failureResponse]
            · refine ⟨r, rfl, ?_⟩
              have := tryBlockRaw_ok_status t env event.body r steps hb
              omega
      · refine ⟨⟨405, jsonHeaders,
            JSON.stringify [(js "error", .str (js "Method Not Allowed"))]⟩, ?_,
          Or.inr (Or.inr (Or.inr (Or.inl rfl)))⟩
        unfold handlerRaw
        rw [if_neg h1, if_pos h2]
  · intro headers m steps hm hd hk hl hb
    rw [handlerRaw_authenticated t env event headers hm hd hk hl, hb]
    rfl
  · intro headers steps hm hd hk hl hb
    rw [handlerRaw_authenticated t env event headers hm hd hk hl, hb]
    rfl
  · intro e steps hb
    exact tryBlockRaw_error t env event.body e steps hb

/-- C11, amended, at the example request on a transport whose `verify` rejects
with an error of message `boom`: the handler returns. -/
theorem handlerRaw_returns_witness :
    ∃ r, (handlerRaw (failingTransport (js "boom")).toRaw sampleEnv
        (samplePost (.str sampleBody)).toRaw).1 = .returned r ∧
      (r.statusCode = 200 ∨ r.statusCode = 400 ∨ r.statusCode = 401 ∨ r.statusCode = 405 ∨
        r.statusCode = 500) :=
  (handlerRaw_returns (failingTransport (js "boom")).toRaw sampleEnv
    (samplePost (.str sampleBody)).toRaw (by simp [Event.toRaw])
    (toRaw_rejectsWithObjects _)).1

/-- C12: the response to a request whose method is not `OPTIONS` has the header
`Content-Type` equal to `application/json` and the header
`Access-Control-Allow-Origin` equal to `*`, and its body is a text that
`JSON.parse` reads as an object. -/
theorem json_response_shape (t : Transport) (env : Env) (event : Event)
    (hm : event.httpMethod ≠ some (js "OPTIONS")) :
    (handler t env event).1.headers.lookup (js "Content-Type") =
      some (js "application/json") ∧
    (handler t env event).1.headers.lookup (js "Access-Control-Allow-Origin") =
      some (js "*") ∧
    ∃ kvs, JSON.parse (.str (handler t env event).1.body) = some (.obj kvs) := by
  rcases handler_outcomes t env event with
    ⟨h0, _⟩ | ⟨_, _, h⟩ | ⟨_, _, h⟩ | ⟨_, _, h⟩ | ⟨_, _, _, _, _, h⟩ | ⟨_, _, _, _, _, _, h⟩ |
    ⟨_, _, _, _, _, _, _, h⟩ | ⟨_, _, _, _, _, _, _, _, _, h⟩ | ⟨_, _, _, _, _, _, h⟩ |
    ⟨_, _, _, _, _, _, _, _, h⟩ | ⟨_, _, _, _, _, _, _, _, _, h⟩ |
    ⟨_, _, _, _, _, _, _, _, _, h⟩
  · exact absurd h0 hm
  all_goals rw [h]
  all_goals exact json_response_parses _ rfl ⟨_, rfl⟩

/-- C12 at a `GET` request. -/
theorem json_response_shape_witness :
    (handler okTransport sampleEnv
        { httpMethod := some (js "GET"), headers := [], body := .null }).1.headers.lookup
        (js "Content-Type") = some (js "application/json") ∧
    (handler okTransport sampleEnv
        { httpMethod := some (js "GET"), headers := [], body := .null }).1.headers.lookup
        (js "Access-Control-Allow-Origin") = some (js "*") ∧
    ∃ kvs, JSON.parse (.str (handler okTransport sampleEnv
        { httpMethod := some (js "GET"), headers := [], body := .null }).1.body) =
      some (.obj kvs) :=
  json_response_shape okTransport sampleEnv
    { httpMethod := some (js "GET"), headers := [], body := .null } (by decide)

/-- C13: whenever `sendMail` is invoked, the message has `from` equal to the
`from` of the payload when that is truthy and otherwise to `GMAIL_USER`,
`subject` equal to the subject of the payload, a `text` property exactly when
the text of the payload is truthy and an `html` property exactly when its html
is truthy, each with the value of the payload; so `text` or `html` is present. -/
theorem message_fields (t : Transport) (env : Env) (event : Event) (opts : MailOptions)
    (h : Effect.sendMail opts ∈ (handler t env event).2) :
    ∃ v, JSON.parse event.body = some v ∧
      (truthy (getProp (js "from") v) = true → opts.from_ = getProp (js "from") v) ∧
      (truthy (getProp (js "from") v) = false →
        ∃ u, env.GMAIL_USER = some u ∧ opts.from_ = some (.str u)) ∧
      getProp (js "subject") v = some opts.subject ∧
      (truthy (getProp (js "text") v) = true → opts.text = getProp (js "text") v) ∧
      (truthy (getProp (js "text") v) = false → opts.text = none) ∧
      (truthy (getProp (js "html") v) = true → opts.html = getProp (js "html") v) ∧
      (truthy (getProp (js "html") v) = false → opts.html = none) ∧
      (opts.text ≠ none ∨ opts.html ≠ none) := by
  obtain ⟨_, hc, _, f, to_, subject, ⟨v, hp, hd, _, _, hsub, _, hcontent⟩, rfl⟩ :=
    sendMail_effect t env event opts h
  obtain ⟨_, hf⟩ := destructure_ok v f hd
  subst hf
  refine ⟨v, hp, ?_, ?_, ?_, ?_, ?_, ?_, ?_, ?_⟩
  · intro h1
    simp only [mailOptions, truthyVal_of_truthy _ h1]
    cases hg : getProp (js "from") v with
    | none => rw [hg] at h1; exact Bool.noConfusion h1
    | some w => rfl
  · intro h1
    obtain ⟨u, hu, _⟩ : ∃ u, env.GMAIL_USER = some u ∧ True := by
      cases hg : env.GMAIL_USER with
      | none => have := hc.1; rw [hg] at this; exact Bool.noConfusion this
      | some u => exact ⟨u, rfl, trivial⟩
    refine ⟨u, hu, ?_⟩
    simp only [mailOptions, (truthyVal_eq_none _).2 h1, hu, Option.map_some']
  · exact hsub
  · intro h1
    simp only [mailOptions, truthyVal_of_truthy _ h1]
  · intro h1
    simp only [mailOptions, (truthyVal_eq_none _).2 h1]
  · intro h1
    simp only [mailOptions, truthyVal_of_truthy _ h1]
  · intro h1
    simp only [mailOptions, (truthyVal_eq_none _).2 h1]
  · rcases hcontent with h1 | h1
    · left
      obtain ⟨w, hw, _⟩ := (truthy_eq_true _).1 h1
      simp only [mailOptions, truthyVal_of_truthy _ h1]
      simp only at hw
      rw [hw]
      exact Option.some_ne_none w
    · right
      obtain ⟨w, hw, _⟩ := (truthy_eq_true _).1 h1
      simp only [mailOptions, truthyVal_of_truthy _ h1]
      simp only at hw
      rw [hw]
      exact Option.some_ne_none w

/-- C13 at the example payload: `from` falls back to `GMAIL_USER`, the text is
passed on and no `html` property is set. -/
theorem message_fields_witness :
    ∃ v, JSON.parse (samplePost (.str sampleBody)).body = some v ∧
      (truthy (getProp (js "from") v) = true →
        (mailOptions sampleEnv (.str (js "x@y.com")) (.str (js "Hi")) sampleFields).from_ =
          getProp (js "from") v) ∧
      (truthy (getProp (js "from") v) = false →
        ∃ u, sampleEnv.GMAIL_USER = some u ∧
          (mailOptions sampleEnv (.str (js "x@y.com")) (.str (js "Hi")) sampleFields).from_ =
            some (.str u)) ∧
      getProp (js "subject") v =
        some (mailOptions sampleEnv (.str (js "x@y.com")) (.str (js "Hi")) sampleFields).subject ∧
      (truthy (getProp (js "text") v) = true →
        (mailOptions sampleEnv (.str (js "x@y.com")) (.str (js "Hi")) sampleFields).text =
          getProp (js "text") v) ∧
      (truthy (getProp (js "text") v) = false →
        (mailOptions sampleEnv (.str (js "x@y.com")) (.str (js "Hi")) sampleFields).text = none) ∧
      (truthy (getProp (js "html") v) = true →
        (mailOptions sampleEnv (.str (js "x@y.com")) (.str (js "Hi")) sampleFields).html =
          getProp (js "html") v) ∧
      (truthy (getProp (js "html") v) = false →
        (mailOptions sampleEnv (.str (js "x@y.com")) (.str (js "Hi")) sampleFields).html = none) ∧
      ((mailOptions sampleEnv (.str (js "x@y.com")) (.str (js "Hi")) sampleFields).text ≠ none ∨
        (mailOptions sampleEnv (.str (js "x@y.com")) (.str (js "Hi")) sampleFields).html ≠
          none) :=
  message_fields okTransport sampleEnv (samplePost (.str sampleBody))
    (mailOptions sampleEnv (.str (js "x@y.com")) (.str (js "Hi")) sampleFields)
    (by rw [sample_run]; simp)

/-- C14: in one invocation `verify` is invoked at most once and `sendMail` at most
once; `sendMail` is invoked only after `verify` has succeeded, directly after
it; when `verify` fails the effects end with the error being logged and
`sendMail` is not invoked; when `sendMail` fails the effects end with the error
being logged: nothing is retried. -/
theorem transport_sequence (t : Transport) (env : Env) (event : Event) :
    (handler t env event).2.countP Effect.isVerify ≤ 1 ∧
    (handler t env event).2.countP Effect.isSendMail ≤ 1 ∧
    (∀ opts, Effect.sendMail opts ∈ (handler t env event).2 →
      t.verify env.GMAIL_USER env.GMAIL_APP_PASSWORD = .ok () ∧
      ∃ l1 l2, (handler t env event).2 = l1 ++ Effect.verify :: Effect.sendMail opts :: l2) ∧
    (∀ e, Effect.verify ∈ (handler t env event).2 →
      t.verify env.GMAIL_USER env.GMAIL_APP_PASSWORD = .error e →
      (handler t env event).2 =
        [.createTransport env.GMAIL_USER env.GMAIL_APP_PASSWORD, .verify, .logError e]) ∧
    (∀ opts e, Effect.sendMail opts ∈ (handler t env event).2 →
      t.sendMail env.GMAIL_USER env.GMAIL_APP_PASSWORD opts = .error e →
      (handler t env event).2 =
        [.createTransport env.GMAIL_USER env.GMAIL_APP_PASSWORD, .verify, .sendMail opts,
         .logError e]) := by
  rcases handler_outcomes t env event with
    ⟨_, h⟩ | ⟨_, _, h⟩ | ⟨_, _, h⟩ | ⟨_, _, h⟩ | ⟨_, _, _, _, _, h⟩ | ⟨_, _, _, _, _, _, h⟩ |
    ⟨_, _, _, _, _, _, _, h⟩ | ⟨_, _, _, _, _, _, _, _, _, h⟩ | ⟨_, _, _, _, _, _, h⟩ |
    ⟨_, _, _, _, _, _, e1, hver, h⟩ | ⟨_, _, _, _, _, _, hver, e1, hs, h⟩ |
    ⟨_, _, _, _, _, _, hver, result, hs, h⟩
  · rw [h]; simp
  · rw [h]; simp
  · rw [h]; simp
  · rw [h]; simp
  · rw [h]; simp [Effect.isVerify, Effect.isSendMail]
  · rw [h]; simp
  · rw [h]; simp
  · rw [h]; simp
  · rw [h]; simp
  · rw [h]
    refine ⟨by simp [Effect.isVerify], by simp [Effect.isSendMail], by simp, ?_, by simp⟩
    intro e _ he
    rw [hver] at he
    rw [Except.error.inj he]
  · rw [h]
    refine ⟨by simp [Effect.isVerify], by simp [Effect.isSendMail], ?_, ?_, ?_⟩
    · intro opts ho
      simp at ho
      subst ho
      exact ⟨hver, [.createTransport env.GMAIL_USER env.GMAIL_APP_PASSWORD], [.logError e1], rfl⟩
    · intro e _ he
      rw [hver] at he
      exact Except.noConfusion he
    · intro opts e ho he
      simp at ho
      subst ho
      rw [hs] at he
      rw [Except.error.inj he]
  · rw [h]
    refine ⟨by simp [Effect.isVerify], by simp [Effect.isSendMail], ?_, ?_, ?_⟩
    · intro opts ho
      simp at ho
      subst ho
      exact ⟨hver, [.createTransport env.GMAIL_USER env.GMAIL_APP_PASSWORD],
        [.logSent result.messageId], rfl⟩
    · intro e _ he
      rw [hver] at he
      exact Except.noConfusion he
    · intro opts e ho he
      simp at ho
      subst ho
      rw [hs] at he
      exact Except.noConfusion he

/-- C14 at the example request on a transport whose `verify` fails: one `verify`,
no `sendMail`. -/
theorem transport_sequence_witness :
    (handler (failingTransport (js "boom")) sampleEnv (samplePost (.str sampleBody))).2 =
      [.createTransport sampleEnv.GMAIL_USER sampleEnv.GMAIL_APP_PASSWORD, .verify,
       .logError { message := js "boom" }] :=
  (transport_sequence (failingTransport (js "boom")) sampleEnv
    (samplePost (.str sampleBody))).2.2.2.1 { message := js "boom" }
    (by rw [sample_run_failing]; simp) rfl

/-- C15 (fails on the code): the payload whose `to` is the empty list passes the
check of `to`, since an empty list is truthy, and `sendMail` is invoked with a
message whose list of recipients is empty. -/
theorem empty_recipients_reach_sendMail :
    JSON.parse (.str emptyRecipientsBody) =
      some (.obj [(js "to", .arr []), (js "subject", .str (js "Hi")),
        (js "text", .str (js "Hello"))]) ∧
    Effect.sendMail (mailOptions sampleEnv (.arr []) (.str (js "Hi")) emptyRecipientsFields) ∈
      (handler okTransport sampleEnv (samplePost (.str emptyRecipientsBody))).2 ∧
    (mailOptions sampleEnv (.arr []) (.str (js "Hi")) emptyRecipientsFields).to_ = [] := by
  refine ⟨rfl, ?_, rfl⟩
  rw [handler_authenticated _ _ _ (samplePost_authenticated _),
    tryBlock_valid _ _ _ _ _ _ emptyRecipients_passes,
    sendPhase_success okTransport sampleEnv _ _ emptyRecipientsFields
      { messageId := js "m1", accepted := [js "x@y.com"], rejected := [] } ⟨rfl, rfl⟩ rfl rfl]
  simp

/-- C16: if `verify` or `sendMail` is invoked, or the response to a request other
than `OPTIONS` has status 200, then the method is `POST`, `API_KEY` is non-empty
and equal to the `x-api-key` header, the body parsed to a payload with truthy
`to`, truthy `subject` and truthy `text` or `html`, and `GMAIL_USER` and
`GMAIL_APP_PASSWORD` are both non-empty. -/
theorem transport_behind_gates (t : Transport) (env : Env) (event : Event)
    (h : Effect.verify ∈ (handler t env event).2 ∨
      (∃ opts, Effect.sendMail opts ∈ (handler t env event).2) ∨
      (event.httpMethod ≠ some (js "OPTIONS") ∧ (handler t env event).1.statusCode = 200)) :
    event.httpMethod = some (js "POST") ∧
    (∃ k, env.API_KEY = some k ∧ k ≠ [] ∧ event.headers.lookup (js "x-api-key") = some k) ∧
    (∃ v, JSON.parse event.body = some v ∧ truthy (getProp (js "to") v) = true ∧
      truthy (getProp (js "subject") v) = true ∧
      (truthy (getProp (js "text") v) = true ∨ truthy (getProp (js "html") v) = true)) ∧
    (∃ u, env.GMAIL_USER = some u ∧ u ≠ []) ∧
    (∃ p, env.GMAIL_APP_PASSWORD = some p ∧ p ≠ []) := by
  have key : ∀ (f : Fields) (to_ subject : Json), Authenticated env event →
      PassesValidation event.body f to_ subject → Configured env →
      event.httpMethod = some (js "POST") ∧
      (∃ k, env.API_KEY = some k ∧ k ≠ [] ∧ event.headers.lookup (js "x-api-key") = some k) ∧
      (∃ v, JSON.parse event.body = some v ∧ truthy (getProp (js "to") v) = true ∧
        truthy (getProp (js "subject") v) = true ∧
        (truthy (getProp (js "text") v) = true ∨ truthy (getProp (js "html") v) = true)) ∧
      (∃ u, env.GMAIL_USER = some u ∧ u ≠ []) ∧
      (∃ p, env.GMAIL_APP_PASSWORD = some p ∧ p ≠ []) := by
    intro f to_ subject ha hv hc
    have hstr : ∀ x : Option JsString, truthyStr x = true → ∃ u, x = some u ∧ u ≠ [] := by
      intro x hx
      cases x with
      | none => exact Bool.noConfusion hx
      | some u =>
        refine ⟨u, rfl, ?_⟩
        rintro rfl
        exact Bool.noConfusion hx
    obtain ⟨hm, hk, hh⟩ := ha
    obtain ⟨v, hp, hd, hto, htt, hsub, hst, hcontent⟩ := hv
    obtain ⟨_, hf⟩ := destructure_ok v f hd
    subst hf
    obtain ⟨k, hk1, hk2⟩ := hstr _ hk
    refine ⟨hm, ⟨k, hk1, hk2, by rw [hh, hk1]⟩, ⟨v, hp, ?_, ?_, hcontent⟩, hstr _ hc.1,
      hstr _ hc.2⟩
    · exact (truthy_eq_true _).2 ⟨to_, hto, htt⟩
    · exact (truthy_eq_true _).2 ⟨subject, hsub, hst⟩
  rcases handler_outcomes t env event with
    ⟨h0, h1⟩ | ⟨_, _, h1⟩ | ⟨_, _, h1⟩ | ⟨_, _, h1⟩ | ⟨_, _, _, _, _, h1⟩ |
    ⟨_, _, _, _, _, _, h1⟩ | ⟨_, _, _, _, _, _, _, h1⟩ | ⟨_, _, _, _, _, _, _, _, _, h1⟩ |
    ⟨_, _, _, _, _, _, h1⟩ | ⟨ha, f, to_, subject, hv, hc, _⟩ |
    ⟨ha, f, to_, subject, hv, hc, _⟩ | ⟨ha, f, to_, subject, hv, hc, _⟩
  · rw [h1] at h
    simp at h
    exact absurd h0 h
  · rw [h1] at h
    simp at h
  · rw [h1] at h
    simp [unauthorizedResponse] at h
  · rw [h1] at h
    simp [badRequest] at h
  · rw [h1] at h
    simp [failureResponse] at h
  · rw [h1] at h
    simp [badRequest] at h
  · rw [h1] at h
    simp [badRequest] at h
  · rw [h1] at h
    simp [badRequest] at h
  · rw [h1] at h
    simp [notConfiguredResponse] at h
  · exact key f to_ subject ha hv hc
  · exact key f to_ subject ha hv hc
  · exact key f to_ subject ha hv hc

/-- C16 at the example request, whose response has status 200. -/
theorem transport_behind_gates_witness :
    (samplePost (.str sampleBody)).httpMethod = some (js "POST") ∧
    (∃ k, sampleEnv.API_KEY = some k ∧ k ≠ [] ∧
      (samplePost (.str sampleBody)).headers.lookup (js "x-api-key") = some k) ∧
    (∃ v, JSON.parse (samplePost (.str sampleBody)).body = some v ∧
      truthy (getProp (js "to") v) = true ∧ truthy (getProp (js "subject") v) = true ∧
      (truthy (getProp (js "text") v) = true ∨ truthy (getProp (js "html") v) = true)) ∧
    (∃ u, sampleEnv.GMAIL_USER = some u ∧ u ≠ []) ∧
    (∃ p, sampleEnv.GMAIL_APP_PASSWORD = some p ∧ p ≠ []) :=
  transport_behind_gates okTransport sampleEnv (samplePost (.str sampleBody))
    (Or.inl (by rw [sample_run]; simp))

/-- C17: two POST requests that both fail the key check get the same response,
status 401 with the same headers and body, whatever their bodies, the transports
and the mail credentials are, and the body is never parsed: the handler performs
no step at all, so no call of `JSON.parse`. -/
theorem unauthenticated_not_parsed (t1 t2 : RawTransport) (env1 env2 : Env)
    (event1 event2 : RawEvent) (h1 : FailsKeyCheck env1 event1)
    (h2 : FailsKeyCheck env2 event2) :
    handlerRaw t1 env1 event1 = handlerRaw t2 env2 event2 ∧
    (handlerRaw t1 env1 event1).1 = .returned unauthorizedResponse ∧
    (∀ x, Step.parse x ∉ (handlerRaw t1 env1 event1).2) ∧
    (handlerRaw t1 env1 event1).2 = [] := by
  rw [handlerRaw_key_rejected t1 env1 event1 h1, handlerRaw_key_rejected t2 env2 event2 h2]
  exact ⟨rfl, rfl, by simp, rfl⟩

/-- C17 at two requests with a wrong or missing key: one with the example payload
and the credentials set, one without a body and with no credentials. -/
theorem unauthenticated_not_parsed_witness :
    handlerRaw okTransport.toRaw sampleEnv
        { httpMethod := some (js "POST"), headers := some [(js "x-api-key", js "wrong")],
          body := .str sampleBody } =
      handlerRaw nullRejectingTransport
        { API_KEY := some (js "k"), GMAIL_USER := none, GMAIL_APP_PASSWORD := none }
        { httpMethod := some (js "POST"), headers := some [], body := .null } ∧
    ∀ x, Step.parse x ∉
      (handlerRaw okTransport.toRaw sampleEnv
        { httpMethod := some (js "POST"), headers := some [(js "x-api-key", js "wrong")],
          body := .str sampleBody }).2 :=
  have h := unauthenticated_not_parsed okTransport.toRaw nullRejectingTransport sampleEnv
    { API_KEY := some (js "k"), GMAIL_USER := none, GMAIL_APP_PASSWORD := none }
    { httpMethod := some (js "POST"), headers := some [(js "x-api-key", js "wrong")],
      body := .str sampleBody }
    { httpMethod := some (js "POST"), headers := some [], body := .null }
    ⟨rfl, _, rfl, Or.inr (by decide)⟩ ⟨rfl, _, rfl, Or.inr (by decide)⟩
  ⟨h.1, h.2.2.1⟩

end EmailService
